import Mathlib

/-
Shallow embedding of the Fixit-AI core: the checkpointed analysis runner
and plain repository analyzer (apps/core/analyzer_service.py), the
analysis-session data model (apps/analysis_session/models.py), the
verification orchestrator
(apps/verification/services/verification_orchestrator.py) and the test
runner (apps/verification/services/test_runner.py).

Python string fields are String, integer counters are Nat, nullable fields
are Option.  The external collaborators (Gemini analyzer, test and fix
generators, subprocess execution, GitHub client) are oracle parameters: the
per-file analyzer is a function FileInfo -> FileOutcome, the orchestrator
receives an OrchEnv giving the outcome of each external call, and the test
runner receives the subprocess outcome.  Python exceptions are modelled by
outcome constructors; database writes (save()) are explicit state updates,
and the orchestrator records a snapshot of the task at every save() so that
temporal properties can be stated over the trace.  Model fields not read or
written by the embedded functions (timestamps other than boolean "was set"
markers, foreign keys, text columns the claims never mention) are omitted.
-/

namespace Fixit

/- A candidate file as returned by GitHubClient.get_repo_files:
a dict with keys path and content. -/
structure FileInfo where
  path : String
  content : String
deriving DecidableEq, Repr

/- Outcome of CodeAnalyzer.analyze_file on one file: either a list of
created Task records (modelled by their content strings) or one of the
exceptions of apps/gemini_analyzer/exceptions.py.  GeminiRateLimitError and
GeminiNetworkError subclass GeminiAPIError, but every except chain in the
source lists them before GeminiAPIError, so distinct constructors are
faithful. -/
inductive FileOutcome where
  | ok (tasks : List String)
  | rateLimitError
  | networkError
  | apiError
  | parsingError
  | otherError
deriving DecidableEq, Repr

def FileOutcome.isOk : FileOutcome → Bool
  | .ok _ => true
  | _ => false

/- AnalysisSession (apps/analysis_session/models.py), restricted to the
columns the embedded code reads or writes. -/
structure AnalysisSession where
  total_files : Nat := 0
  files_analyzed : Nat := 0
  files_failed : Nat := 0
  vulnerabilities_found : Nat := 0
  status : String := "pending"
  last_checkpoint_at_set : Bool := false
deriving DecidableEq, Repr

/- AnalysisSession.progress_percentage (models.py lines 95-104); Python
float arithmetic is modelled over the rationals. -/
def progress_percentage (s : AnalysisSession) : ℚ :=
  if s.total_files = 0 then 0
  else min ((s.files_analyzed : ℚ) / (s.total_files : ℚ) * 100) 100

/- Repository (apps/repository/models.py), restricted to the columns the
analyzer service touches. -/
structure Repo where
  status : String := "pending"
  analysis_progress : String := ""
  last_analyzed_at_set : Bool := false
deriving DecidableEq, Repr

/- CheckPoint (apps/analysis_session/models.py lines 130-160).
state_data is the blob {task_created, timestamp}; only the task count is
modelled. -/
structure CheckPointRec where
  checkpoint_number : Nat
  files_processed : List String
  last_file_index : Nat
  state_task_created : Nat := 0
deriving DecidableEq, Repr

/- session.checkpoints.first() under CheckPoint.Meta.ordering
['-checkpoint_number']: the checkpoint with the largest number
(unique_together forbids ties within a session). -/
def latest_checkpoint : List CheckPointRec → Option CheckPointRec
  | [] => none
  | c :: rest =>
    match latest_checkpoint rest with
    | none => some c
    | some m => if m.checkpoint_number < c.checkpoint_number then some c else some m

/- Mutable state of one AnalyzerService.analyze_with_checkpoints run:
the session and repository rows, the local variables processed_files,
all_task and checkpoint_counter, the CheckPoint rows created by this run,
and an instrumentation log of the paths actually passed to
code_analyzer.analyze_file. -/
structure RunState where
  session : AnalysisSession
  repository : Repo
  processed_files : List String
  all_task : List String
  checkpoint_counter : Nat
  new_checkpoints : List CheckPointRec
  analyzed_log : List String
deriving DecidableEq, Repr

/- analyzer_service.py lines 342-353: after a successful file, create a
CheckPoint when the 1-based position of the file just finished is a
multiple of checkpoint_interval. -/
def stepCheckpoint (checkpoint_interval index : Nat) (st : RunState) : RunState :=
  if (index + 1) % checkpoint_interval = 0 then
    { st with
      checkpoint_counter := st.checkpoint_counter + 1
      new_checkpoints := st.new_checkpoints ++
        [{ checkpoint_number := st.checkpoint_counter + 1
           files_processed := st.processed_files
           last_file_index := index
           state_task_created := st.all_task.length }] }
  else st

/- One iteration of the file loop of analyze_with_checkpoints
(analyzer_service.py lines 284-370): skip already-processed paths,
otherwise run the analyzer; on success extend all_task and processed_files,
set files_analyzed to index+1 and maybe checkpoint; on any exception
increment files_failed and continue. -/
def stepFile (analyzer : FileInfo → FileOutcome) (checkpoint_interval index : Nat)
    (f : FileInfo) (st : RunState) : RunState :=
  if f.path ∈ st.processed_files then st
  else
    let st1 := { st with analyzed_log := st.analyzed_log ++ [f.path] }
    match analyzer f with
    | .ok tasks =>
      let all_task := st1.all_task ++ tasks
      let processed := st1.processed_files ++ [f.path]
      stepCheckpoint checkpoint_interval index
        { st1 with
          all_task := all_task
          processed_files := processed
          session :=
            { st1.session with
              vulnerabilities_found :=
                if tasks.isEmpty then st1.session.vulnerabilities_found
                else all_task.length
              files_analyzed := index + 1
              last_checkpoint_at_set := true } }
    | _ =>
      { st1 with
        session := { st1.session with files_failed := st1.session.files_failed + 1 } }

/- for index, file_info in enumerate(files), starting the index at
start. -/
def runFiles (analyzer : FileInfo → FileOutcome) (checkpoint_interval : Nat) :
    List FileInfo → Nat → RunState → RunState
  | [], _, st => st
  | f :: rest, index, st =>
      runFiles analyzer checkpoint_interval rest (index + 1)
        (stepFile analyzer checkpoint_interval index f st)

/- Aggregate dict returned by analyze_with_checkpoints (lines 395-400).
vulnerabilities_found and tasks_created recount the persisted Task rows
created at or after session.started_at, i.e. the tasks persisted by earlier
runs of this session (argument db0 below) plus the tasks of this run. -/
structure RunResult where
  vulnerabilities_found : Nat
  tasks_created : Nat
  files_analyzed : Nat
  files_failed : Nat
deriving DecidableEq, Repr

/- AnalyzerService.analyze_with_checkpoints (analyzer_service.py lines
204-400).  cps are the session's existing CheckPoint rows, files the list
fetched from GitHub, db0 the Task rows already persisted for this session
(empty for a fresh session).  Logging and progress broadcasts are dropped;
there is no rate-limit or per-kind handler in this method, a single generic
exception handler covers every analyzer failure. -/
def analyze_with_checkpoints (analyzer : FileInfo → FileOutcome) (repository : Repo)
    (session : AnalysisSession) (cps : List CheckPointRec) (db0 : List String)
    (files : List FileInfo) (checkpoint_interval : Nat) :
    RunState × RunResult :=
  let resume :=
    match latest_checkpoint cps with
    | some cp => (cp.files_processed, cp.checkpoint_number)
    | none => ([], 0)
  let session1 := { session with total_files := files.length }
  let st0 : RunState :=
    { session := session1
      repository := repository
      processed_files := resume.1
      all_task := []
      checkpoint_counter := resume.2
      new_checkpoints := []
      analyzed_log := [] }
  let st1 := runFiles analyzer checkpoint_interval files 0 st0
  let st2 := { st1 with
    repository := { st1.repository with status := "completed", last_analyzed_at_set := true } }
  (st2,
   { vulnerabilities_found := (db0 ++ st2.all_task).length
     tasks_created := (db0 ++ st2.all_task).length
     files_analyzed := st2.processed_files.length
     files_failed := st2.session.files_failed })

/- AnalyzerService.analyze_repository (analyzer_service.py lines 39-201),
the non-checkpointed analyzer.  Its loop enumerates from 1, updates
repository.analysis_progress per file, stops on GeminiRateLimitError with
an error status and a progress message naming how many files completed, and
skips the file on every other analyzer exception.  Returns the final
repository row, the accumulated tasks, and the instrumentation log of paths
passed to the analyzer. -/
def analyzeRepoGo (analyzer : FileInfo → FileOutcome) (total : Nat) :
    List FileInfo → Nat → Repo → List String → List String →
    Repo × List String × List String
  | [], _, repo, all_tasks, log =>
      ({ repo with status := "completed", last_analyzed_at_set := true }, all_tasks, log)
  | f :: rest, index, repo, all_tasks, log =>
      let repo1 := { repo with
        analysis_progress := "Analyzing " ++ toString index ++ "/" ++ toString total ++ " files" }
      let log1 := log ++ [f.path]
      match analyzer f with
      | .ok tasks => analyzeRepoGo analyzer total rest (index + 1) repo1 (all_tasks ++ tasks) log1
      | .rateLimitError =>
          ({ repo1 with
             status := "error"
             analysis_progress :=
               "Rate limit exceeded at " ++ toString (index - 1) ++ "/" ++ toString total
                 ++ " files" },
           all_tasks, log1)
      | _ => analyzeRepoGo analyzer total rest (index + 1) repo1 all_tasks log1

def analyze_repository (analyzer : FileInfo → FileOutcome) (repository : Repo)
    (files : List FileInfo) : Repo × List String × List String :=
  if repository.status = "analyzing" then (repository, [], [])
  else
    let repo := { repository with status := "analyzing" }
    if files.isEmpty then ({ repo with status := "error" }, [], [])
    else analyzeRepoGo analyzer files.length files 1 repo [] []

/- The (processed_files, all_task) projection of one loop iteration of
analyze_with_checkpoints: everything the per-file step does to the local
variables that carry tasks across a resume.  Used to relate a one-pass run
to a stop-and-resume run. -/
def pureStep (analyzer : FileInfo → FileOutcome) (s : List String × List String)
    (f : FileInfo) : List String × List String :=
  if f.path ∈ s.1 then s
  else
    match analyzer f with
    | .ok tasks => (s.1 ++ [f.path], s.2 ++ tasks)
    | _ => s

theorem stepCheckpoint_processed (K index : Nat) (st : RunState) :
    (stepCheckpoint K index st).processed_files = st.processed_files := by
  unfold stepCheckpoint; split <;> rfl

theorem stepCheckpoint_all_task (K index : Nat) (st : RunState) :
    (stepCheckpoint K index st).all_task = st.all_task := by
  unfold stepCheckpoint; split <;> rfl

theorem stepCheckpoint_log (K index : Nat) (st : RunState) :
    (stepCheckpoint K index st).analyzed_log = st.analyzed_log := by
  unfold stepCheckpoint; split <;> rfl

theorem stepCheckpoint_session (K index : Nat) (st : RunState) :
    (stepCheckpoint K index st).session = st.session := by
  unfold stepCheckpoint; split <;> rfl

theorem pureStep_mem (a : FileInfo → FileOutcome) {s : List String × List String}
    {f : FileInfo} (h : f.path ∈ s.1) : pureStep a s f = s := by
  unfold pureStep; rw [if_pos h]

theorem pureStep_ok (a : FileInfo → FileOutcome) {s : List String × List String}
    {f : FileInfo} {tasks : List String} (h : f.path ∉ s.1) (hA : a f = .ok tasks) :
    pureStep a s f = (s.1 ++ [f.path], s.2 ++ tasks) := by
  unfold pureStep; rw [if_neg h, hA]

theorem pureStep_err (a : FileInfo → FileOutcome) {s : List String × List String}
    {f : FileInfo} (h : f.path ∉ s.1) (hA : (a f).isOk = false) :
    pureStep a s f = s := by
  unfold pureStep
  rw [if_neg h]
  cases hc : a f
  case ok tasks => rw [hc] at hA; cases hA
  all_goals rfl

theorem stepFile_mem (a : FileInfo → FileOutcome) (K index : Nat) {f : FileInfo}
    {st : RunState} (h : f.path ∈ st.processed_files) :
    stepFile a K index f st = st := by
  unfold stepFile; rw [if_pos h]

theorem stepFile_ok (a : FileInfo → FileOutcome) (K index : Nat) {f : FileInfo}
    {st : RunState} {tasks : List String} (h : f.path ∉ st.processed_files)
    (hA : a f = .ok tasks) :
    stepFile a K index f st =
      stepCheckpoint K index
        { st with
          analyzed_log := st.analyzed_log ++ [f.path]
          all_task := st.all_task ++ tasks
          processed_files := st.processed_files ++ [f.path]
          session :=
            { st.session with
              vulnerabilities_found :=
                if tasks.isEmpty then st.session.vulnerabilities_found
                else st.all_task.length + tasks.length
              files_analyzed := index + 1
              last_checkpoint_at_set := true } } := by
  unfold stepFile
  rw [if_neg h, hA]
  simp

theorem stepFile_err (a : FileInfo → FileOutcome) (K index : Nat) {f : FileInfo}
    {st : RunState} (h : f.path ∉ st.processed_files) (hA : (a f).isOk = false) :
    stepFile a K index f st =
      { st with
        analyzed_log := st.analyzed_log ++ [f.path]
        session := { st.session with files_failed := st.session.files_failed + 1 } } := by
  unfold stepFile
  rw [if_neg h]
  cases hc : a f
  case ok tasks => rw [hc] at hA; cases hA
  all_goals rfl

theorem stepFile_pure (a : FileInfo → FileOutcome) (K index : Nat)
    (f : FileInfo) (st : RunState) :
    ((stepFile a K index f st).processed_files,
      (stepFile a K index f st).all_task) =
      pureStep a (st.processed_files, st.all_task) f := by
  by_cases h : f.path ∈ st.processed_files
  · rw [stepFile_mem a K index h, pureStep_mem a h]
  · cases hA : a f with
    | ok tasks =>
        rw [stepFile_ok a K index h hA, pureStep_ok a h hA,
          stepCheckpoint_processed, stepCheckpoint_all_task]
    | rateLimitError =>
        rw [stepFile_err a K index h (by rw [hA]; rfl),
          pureStep_err a h (by rw [hA]; rfl)]
    | networkError =>
        rw [stepFile_err a K index h (by rw [hA]; rfl),
          pureStep_err a h (by rw [hA]; rfl)]
    | apiError =>
        rw [stepFile_err a K index h (by rw [hA]; rfl),
          pureStep_err a h (by rw [hA]; rfl)]
    | parsingError =>
        rw [stepFile_err a K index h (by rw [hA]; rfl),
          pureStep_err a h (by rw [hA]; rfl)]
    | otherError =>
        rw [stepFile_err a K index h (by rw [hA]; rfl),
          pureStep_err a h (by rw [hA]; rfl)]

theorem runFiles_pure (a : FileInfo → FileOutcome) (K : Nat)
    (files : List FileInfo) : ∀ (index : Nat) (st : RunState),
    ((runFiles a K files index st).processed_files,
      (runFiles a K files index st).all_task) =
      List.foldl (pureStep a) (st.processed_files, st.all_task) files := by
  induction files with
  | nil => intro index st; rfl
  | cons f rest ih =>
      intro index st
      rw [runFiles, List.foldl_cons, ← stepFile_pure a K index f st]
      exact ih (index + 1) _

theorem pureStep_fst_sub (a : FileInfo → FileOutcome) (s : List String × List String)
    (f : FileInfo) : s.1 ⊆ (pureStep a s f).1 := by
  by_cases hm : f.path ∈ s.1
  · rw [pureStep_mem a hm]; exact fun x h => h
  · cases hA : a f with
    | ok tasks => rw [pureStep_ok a hm hA]; exact List.subset_append_left _ _
    | rateLimitError => rw [pureStep_err a hm (by rw [hA]; rfl)]; exact fun x h => h
    | networkError => rw [pureStep_err a hm (by rw [hA]; rfl)]; exact fun x h => h
    | apiError => rw [pureStep_err a hm (by rw [hA]; rfl)]; exact fun x h => h
    | parsingError => rw [pureStep_err a hm (by rw [hA]; rfl)]; exact fun x h => h
    | otherError => rw [pureStep_err a hm (by rw [hA]; rfl)]; exact fun x h => h

theorem foldl_pureStep_fst_sub (a : FileInfo → FileOutcome) (fs : List FileInfo) :
    ∀ s : List String × List String, s.1 ⊆ (List.foldl (pureStep a) s fs).1 := by
  induction fs with
  | nil => exact fun _ _ h => h
  | cons f rest ih =>
      exact fun s => (pureStep_fst_sub a s f).trans (ih (pureStep a s f))

theorem pureStep_accum (a : FileInfo → FileOutcome) (p d : List String) (f : FileInfo) :
    pureStep a (p, d) f = ((pureStep a (p, []) f).1, d ++ (pureStep a (p, []) f).2) := by
  by_cases hm : f.path ∈ p
  · rw [pureStep_mem a hm, pureStep_mem a hm]; simp
  · cases hA : a f with
    | ok tasks => rw [pureStep_ok a hm hA, pureStep_ok a hm hA]; simp
    | rateLimitError =>
        rw [pureStep_err a hm (by rw [hA]; rfl), pureStep_err a hm (by rw [hA]; rfl)]; simp
    | networkError =>
        rw [pureStep_err a hm (by rw [hA]; rfl), pureStep_err a hm (by rw [hA]; rfl)]; simp
    | apiError =>
        rw [pureStep_err a hm (by rw [hA]; rfl), pureStep_err a hm (by rw [hA]; rfl)]; simp
    | parsingError =>
        rw [pureStep_err a hm (by rw [hA]; rfl), pureStep_err a hm (by rw [hA]; rfl)]; simp
    | otherError =>
        rw [pureStep_err a hm (by rw [hA]; rfl), pureStep_err a hm (by rw [hA]; rfl)]; simp

theorem foldl_pureStep_accum (a : FileInfo → FileOutcome) (fs : List FileInfo) :
    ∀ p d : List String,
      List.foldl (pureStep a) (p, d) fs =
        ((List.foldl (pureStep a) (p, []) fs).1,
          d ++ (List.foldl (pureStep a) (p, []) fs).2) := by
  induction fs with
  | nil => intro p d; simp
  | cons f rest ih =>
      intro p d
      simp only [List.foldl_cons]
      rw [pureStep_accum a p d f]
      rcases hqt : pureStep a (p, []) f with ⟨q, ts⟩
      rw [ih q (d ++ ts), ih q ts]
      simp

theorem foldl_pureStep_refold (a : FileInfo → FileOutcome) (fs : List FileInfo) :
    ∀ s : List String × List String,
      List.foldl (pureStep a) (List.foldl (pureStep a) s fs) fs =
        List.foldl (pureStep a) s fs := by
  induction fs with
  | nil => intro s; rfl
  | cons f rest ih =>
      intro s
      simp only [List.foldl_cons]
      have hsub := foldl_pureStep_fst_sub a rest (pureStep a s f)
      have hstep : pureStep a (List.foldl (pureStep a) (pureStep a s f) rest) f =
          List.foldl (pureStep a) (pureStep a s f) rest := by
        by_cases hm : f.path ∈ (List.foldl (pureStep a) (pureStep a s f) rest).1
        · exact pureStep_mem a hm
        · have hs1 : f.path ∉ (pureStep a s f).1 := fun hx => hm (hsub hx)
          have hs : f.path ∉ s.1 := by
            intro hx
            exact hs1 (by rw [pureStep_mem a hx]; exact hx)
          cases hA : a f with
          | ok tasks =>
              refine absurd ?_ hs1
              rw [pureStep_ok a hs hA]
              simp
          | rateLimitError => exact pureStep_err a hm (by rw [hA]; rfl)
          | networkError => exact pureStep_err a hm (by rw [hA]; rfl)
          | apiError => exact pureStep_err a hm (by rw [hA]; rfl)
          | parsingError => exact pureStep_err a hm (by rw [hA]; rfl)
          | otherError => exact pureStep_err a hm (by rw [hA]; rfl)
      rw [hstep, ih (pureStep a s f)]

/- A resumed run never hands the analyzer a path that is already in the
resumed checkpoint's processed set: the analyzer is only invoked on paths
outside processed_files, and processed_files only grows. -/
theorem stepFile_log_avoid (a : FileInfo → FileOutcome) (K index : Nat) (f : FileInfo)
    (st : RunState) (S : List String)
    (h1 : ∀ p ∈ st.analyzed_log, p ∉ S) (h2 : ∀ p ∈ S, p ∈ st.processed_files) :
    (∀ p ∈ (stepFile a K index f st).analyzed_log, p ∉ S) ∧
      (∀ p ∈ S, p ∈ (stepFile a K index f st).processed_files) := by
  by_cases hm : f.path ∈ st.processed_files
  · rw [stepFile_mem a K index hm]
    exact ⟨h1, h2⟩
  · have hfS : f.path ∉ S := fun hS => hm (h2 _ hS)
    have hlog : ∀ p ∈ st.analyzed_log ++ [f.path], p ∉ S := by
      intro p hp
      rcases List.mem_append.mp hp with h | h
      · exact h1 p h
      · rw [List.mem_singleton.mp h]; exact hfS
    cases hA : a f with
    | ok tasks =>
        rw [stepFile_ok a K index hm hA]
        rw [stepCheckpoint_log, stepCheckpoint_processed]
        refine ⟨hlog, ?_⟩
        intro p hp
        exact List.mem_append_left _ (h2 p hp)
    | rateLimitError =>
        rw [stepFile_err a K index hm (by rw [hA]; rfl)]
        exact ⟨hlog, h2⟩
    | networkError =>
        rw [stepFile_err a K index hm (by rw [hA]; rfl)]
        exact ⟨hlog, h2⟩
    | apiError =>
        rw [stepFile_err a K index hm (by rw [hA]; rfl)]
        exact ⟨hlog, h2⟩
    | parsingError =>
        rw [stepFile_err a K index hm (by rw [hA]; rfl)]
        exact ⟨hlog, h2⟩
    | otherError =>
        rw [stepFile_err a K index hm (by rw [hA]; rfl)]
        exact ⟨hlog, h2⟩

theorem runFiles_log_avoid (a : FileInfo → FileOutcome) (K : Nat) (files : List FileInfo) :
    ∀ (index : Nat) (st : RunState) (S : List String),
      (∀ p ∈ st.analyzed_log, p ∉ S) → (∀ p ∈ S, p ∈ st.processed_files) →
      ∀ p ∈ (runFiles a K files index st).analyzed_log, p ∉ S := by
  induction files with
  | nil => intro _ st S h1 _; exact h1
  | cons f rest ih =>
      intro index st S h1 h2
      rw [runFiles]
      rcases stepFile_log_avoid a K index f st S h1 h2 with ⟨h1x, h2x⟩
      exact ih _ _ S h1x h2x

theorem latest_checkpoint_cons_isSome (c : CheckPointRec) (rest : List CheckPointRec) :
    (latest_checkpoint (c :: rest)).isSome := by
  unfold latest_checkpoint
  cases latest_checkpoint rest with
  | none => rfl
  | some m => by_cases h : m.checkpoint_number < c.checkpoint_number <;> simp [h]

/- session.checkpoints.first() under descending ordering is a checkpoint of
the session with the maximal checkpoint_number. -/
theorem latest_checkpoint_spec (cps : List CheckPointRec) :
    ∀ cp : CheckPointRec, latest_checkpoint cps = some cp →
      cp ∈ cps ∧ ∀ c ∈ cps, c.checkpoint_number ≤ cp.checkpoint_number := by
  induction cps with
  | nil => intro cp h; cases h
  | cons c rest ih =>
      intro cp h
      rw [latest_checkpoint] at h
      cases hrest : latest_checkpoint rest with
      | none =>
          rw [hrest] at h
          have hcc : c = cp := by simpa using h
          have hrnil : rest = [] := by
            cases rest with
            | nil => rfl
            | cons x xs =>
                have hs := latest_checkpoint_cons_isSome x xs
                rw [hrest] at hs
                simp at hs
          subst hcc
          subst hrnil
          refine ⟨List.mem_singleton_self c, ?_⟩
          intro x hx
          rw [List.mem_singleton.mp hx]
      | some m =>
          rw [hrest] at h
          have h : (if m.checkpoint_number < c.checkpoint_number then some c
              else some m) = some cp := h
          rcases ih m hrest with ⟨hmem, hle⟩
          by_cases hlt : m.checkpoint_number < c.checkpoint_number
          · rw [if_pos hlt] at h
            have hcc : c = cp := by simpa using h
            subst hcc
            refine ⟨List.mem_cons_self c rest, ?_⟩
            intro x hx
            rcases List.mem_cons.mp hx with hxc | hxr
            · rw [hxc]
            · exact (hle x hxr).trans (le_of_lt hlt)
          · rw [if_neg hlt] at h
            have hcc : m = cp := by simpa using h
            subst hcc
            refine ⟨List.mem_cons_of_mem c hmem, ?_⟩
            intro x hx
            rcases List.mem_cons.mp hx with hxc | hxr
            · rw [hxc]; exact le_of_not_lt hlt
            · exact hle x hxr

/- The Python signature default: checkpoint_interval = 5. -/
def default_checkpoint_interval : Nat := 5

/- Re-folding a prefix the runner has already absorbed is a no-op: every
path it added is skipped, and every file that failed fails again (the
analyzer is a fixed function). -/
theorem foldl_pureStep_prefix_noop (a : FileInfo → FileOutcome) (fs : List FileInfo)
    (s : List String × List String) :
    List.foldl (pureStep a) ((List.foldl (pureStep a) s fs).1, []) fs =
      ((List.foldl (pureStep a) s fs).1, []) := by
  have hre := foldl_pureStep_refold a fs s
  have hacc := foldl_pureStep_accum a fs (List.foldl (pureStep a) s fs).1
      (List.foldl (pureStep a) s fs).2
  rw [Prod.mk.eta, hre] at hacc
  have h1 : (List.foldl (pureStep a) ((List.foldl (pureStep a) s fs).1, []) fs).1 =
      (List.foldl (pureStep a) s fs).1 := (congrArg Prod.fst hacc).symm
  have h2 := congrArg Prod.snd hacc
  have h3 : (List.foldl (pureStep a) ((List.foldl (pureStep a) s fs).1, []) fs).2 = [] := by
    simpa using h2
  exact Prod.ext_iff.mpr ⟨h1, h3⟩

/- One uninterrupted pass and a stop-after-prefix-and-resume pass build the
same task list: the tasks persisted during the prefix followed by the tasks
of a resumed fold equal the tasks of the single fold. -/
theorem resume_task_eq (a : FileInfo → FileOutcome) (l1 l2 : List FileInfo) :
    (List.foldl (pureStep a) ([], []) l1).2 ++
      (List.foldl (pureStep a)
        ((List.foldl (pureStep a) ([], []) l1).1, []) (l1 ++ l2)).2 =
      (List.foldl (pureStep a) ([], []) (l1 ++ l2)).2 := by
  rw [List.foldl_append, List.foldl_append, foldl_pureStep_prefix_noop a l1 ([], [])]
  have haccR := foldl_pureStep_accum a l2
      (List.foldl (pureStep a) ([], []) l1).1 (List.foldl (pureStep a) ([], []) l1).2
  rw [Prod.mk.eta] at haccR
  rw [haccR]

/-- Claim C4: resume correctness of the Checkpointed Analysis Runner.  When
a session has checkpoints, the runner resumes from the one with the highest
checkpoint_number; it never hands the analyzer a path that is in that
checkpoint's processed-files set; and if the first run stopped exactly
after persisting a checkpoint (so the checkpoint's processed set is the
fold state over the first t files), the tasks persisted by the first run
followed by the tasks of the resumed run equal, by content, the task list
of one uninterrupted pass. -/
theorem C4_resume_correctness (a : FileInfo → FileOutcome) (K : Nat)
    (repository : Repo) (session : AnalysisSession)
    (cps : List CheckPointRec) (cp : CheckPointRec) (files : List FileInfo) (t : Nat)
    (hlatest : latest_checkpoint cps = some cp)
    (hstop : cp.files_processed =
      (List.foldl (pureStep a) ([], []) (files.take t)).1) :
    (cp ∈ cps ∧ ∀ c ∈ cps, c.checkpoint_number ≤ cp.checkpoint_number) ∧
    (∀ p ∈ cp.files_processed,
      p ∉ (analyze_with_checkpoints a repository session cps
            (List.foldl (pureStep a) ([], []) (files.take t)).2 files K).1.analyzed_log) ∧
    ((List.foldl (pureStep a) ([], []) (files.take t)).2 ++
        (analyze_with_checkpoints a repository session cps
          (List.foldl (pureStep a) ([], []) (files.take t)).2 files K).1.all_task =
      (analyze_with_checkpoints a repository session [] [] files K).1.all_task) := by
  refine ⟨latest_checkpoint_spec cps cp hlatest, ?_, ?_⟩
  · intro p hpS
    simp only [analyze_with_checkpoints, hlatest]
    intro hplog
    exact runFiles_log_avoid a K files 0 _ cp.files_processed
      (by intro q hq; cases hq) (by intro q hq; exact hq) p hplog hpS
  · simp only [analyze_with_checkpoints, hlatest, latest_checkpoint]
    have hres := congrArg Prod.snd (runFiles_pure a K files 0
      { session := { session with total_files := files.length }
        repository := repository
        processed_files := cp.files_processed
        all_task := []
        checkpoint_counter := cp.checkpoint_number
        new_checkpoints := []
        analyzed_log := [] })
    have hone := congrArg Prod.snd (runFiles_pure a K files 0
      { session := { session with total_files := files.length }
        repository := repository
        processed_files := []
        all_task := []
        checkpoint_counter := 0
        new_checkpoints := []
        analyzed_log := [] })
    simp only at hres hone
    rw [hres, hone, hstop]
    have := resume_task_eq a (files.take t) (files.drop t)
    rw [List.take_append_drop] at this
    exact this

/- Concrete instances for the witnesses: a deterministic analyzer that
reports one finding per file, a two-file repository, and the checkpoint
written after the first file. -/
def aEx : FileInfo → FileOutcome := fun f => .ok [f.path ++ ":task"]

def filesEx : List FileInfo :=
  [{ path := "x", content := "cx" }, { path := "y", content := "cy" }]

def cpEx : CheckPointRec :=
  { checkpoint_number := 1
    files_processed := ["x"]
    last_file_index := 0
    state_task_created := 1 }

theorem C4_resume_correctness_witness :
    (latest_checkpoint [cpEx] = some cpEx ∧
      cpEx.files_processed = (List.foldl (pureStep aEx) ([], []) (filesEx.take 1)).1) ∧
    ((cpEx ∈ [cpEx] ∧ ∀ c ∈ [cpEx], c.checkpoint_number ≤ cpEx.checkpoint_number) ∧
      (∀ p ∈ cpEx.files_processed,
        p ∉ (analyze_with_checkpoints aEx {} {} [cpEx]
              (List.foldl (pureStep aEx) ([], []) (filesEx.take 1)).2 filesEx 1).1.analyzed_log) ∧
      ((List.foldl (pureStep aEx) ([], []) (filesEx.take 1)).2 ++
          (analyze_with_checkpoints aEx {} {} [cpEx]
            (List.foldl (pureStep aEx) ([], []) (filesEx.take 1)).2 filesEx 1).1.all_task =
        (analyze_with_checkpoints aEx {} {} [] [] filesEx 1).1.all_task)) :=
  ⟨⟨by decide, by decide⟩,
    C4_resume_correctness aEx 1 {} {} [cpEx] cpEx filesEx 1 (by decide) (by decide)⟩

/- Tasks accumulated from the files whose analysis succeeds (used to state
what the rate-limit early return hands back). -/
def okTasks (a : FileInfo → FileOutcome) : List FileInfo → List String
  | [] => []
  | g :: rest =>
    match a g with
    | .ok ts => ts ++ okTasks a rest
    | _ => okTasks a rest

theorem analyzeRepoGo_rate_limit (a : FileInfo → FileOutcome) (total : Nat)
    (f : FileInfo) (post : List FileInfo) (hf : a f = .rateLimitError) :
    ∀ (pre : List FileInfo) (index : Nat) (repo : Repo) (acc log : List String),
      (∀ g ∈ pre, (a g).isOk = true) →
      analyzeRepoGo a total (pre ++ f :: post) index repo acc log =
        ({ repo with
            status := "error"
            analysis_progress :=
              "Rate limit exceeded at " ++ toString (index + pre.length - 1) ++ "/"
                ++ toString total ++ " files" },
          acc ++ okTasks a pre,
          log ++ (pre.map FileInfo.path ++ [f.path])) := by
  intro pre
  induction pre with
  | nil =>
      intro index repo acc log _
      simp only [List.nil_append, analyzeRepoGo, hf, okTasks]
      simp
  | cons g rest ih =>
      intro index repo acc log hpre
      have hg : (a g).isOk = true := hpre g (List.mem_cons_self g rest)
      cases hgA : a g with
      | ok ts =>
          simp only [List.cons_append, analyzeRepoGo, hgA, List.append_eq]
          rw [ih (index + 1) _ (acc ++ ts) _ (fun x hx => hpre x (List.mem_cons_of_mem g hx))]
          have harith : index + 1 + rest.length - 1 = index + (g :: rest).length - 1 := by
            simp only [List.length_cons]
            omega
          rw [harith]
          simp [okTasks, hgA, List.append_assoc]
      | rateLimitError => rw [hgA] at hg; cases hg
      | networkError => rw [hgA] at hg; cases hg
      | apiError => rw [hgA] at hg; cases hg
      | parsingError => rw [hgA] at hg; cases hg
      | otherError => rw [hgA] at hg; cases hg

/-- Claim C1 (amended): the stop-on-rate-limit behavior belongs to the
non-checkpointed AnalyzerService.analyze_repository, not to the
Checkpointed Analysis Runner.  For analyze_repository, when every file
before position k succeeds and file k raises the rate-limit error, the run
stops there (no later file reaches the analyzer), the repository status is
set to "error" with a progress message recording that k-1 files completed
out of the total, and the tasks accumulated from the first k-1 files are
returned.  analyze_with_checkpoints instead catches the rate-limit error in
its generic per-file handler and continues (see the counterexample). -/
theorem C1_rate_limit_stops_analyze_repository (a : FileInfo → FileOutcome)
    (repository : Repo) (pre : List FileInfo) (f : FileInfo) (post : List FileInfo)
    (hst : repository.status ≠ "analyzing")
    (hpre : ∀ g ∈ pre, (a g).isOk = true)
    (hf : a f = .rateLimitError) :
    analyze_repository a repository (pre ++ f :: post) =
      ({ repository with
          status := "error"
          analysis_progress :=
            "Rate limit exceeded at " ++ toString pre.length ++ "/"
              ++ toString (pre ++ f :: post).length ++ " files" },
        okTasks a pre,
        pre.map FileInfo.path ++ [f.path]) := by
  unfold analyze_repository
  rw [if_neg hst, if_neg (by simp)]
  rw [analyzeRepoGo_rate_limit a (pre ++ f :: post).length f post hf pre 1
    { repository with status := "analyzing" } [] [] hpre]
  have harith : 1 + pre.length - 1 = pre.length := by omega
  rw [harith]
  simp

/- Example inputs for the rate-limit claims: twelve files a..l, an analyzer
that raises the rate-limit error on the seventh file g and succeeds on
every other file. -/
def pre6 : List FileInfo :=
  [⟨"a", ""⟩, ⟨"b", ""⟩, ⟨"c", ""⟩, ⟨"d", ""⟩, ⟨"e", ""⟩, ⟨"f", ""⟩]

def fg : FileInfo := ⟨"g", ""⟩

def post5 : List FileInfo := [⟨"h", ""⟩, ⟨"i", ""⟩, ⟨"j", ""⟩, ⟨"k", ""⟩, ⟨"l", ""⟩]

def files12 : List FileInfo := pre6 ++ fg :: post5

def aRL : FileInfo → FileOutcome := fun f =>
  if f.path = "g" then .rateLimitError else .ok [f.path ++ ":t"]

theorem C1_rate_limit_stops_analyze_repository_witness :
    ((({} : Repo)).status ≠ "analyzing" ∧ (∀ g ∈ pre6, (aRL g).isOk = true) ∧
      aRL fg = .rateLimitError) ∧
    analyze_repository aRL {} (pre6 ++ fg :: post5) =
      ({ status := "error"
         analysis_progress := "Rate limit exceeded at 6/12 files"
         last_analyzed_at_set := false },
        okTasks aRL pre6,
        pre6.map FileInfo.path ++ [fg.path]) ∧
    "Rate limit exceeded at 6/12 files" =
      "Rate limit exceeded at " ++ "6/12" ++ " files" :=
  ⟨⟨by decide, by decide, by decide⟩,
    by
      rw [C1_rate_limit_stops_analyze_repository aRL {} pre6 fg post5
        (by decide) (by decide) (by decide)]
      decide,
    by decide⟩

/-- Claim C1 is false of the Checkpointed Analysis Runner itself: with
twelve files and the rate-limit error raised on file 7 of 12, the runner
does not stop — file 8 (path "h") is still handed to the analyzer — no
error state is recorded (repository ends "completed", session status is
untouched), and the rate-limited file is merely counted in files_failed. -/
theorem C1_counterexample :
    "h" ∈ (analyze_with_checkpoints aRL {} { status := "running" } [] []
        files12 5).1.analyzed_log ∧
    (analyze_with_checkpoints aRL {} { status := "running" } [] []
        files12 5).1.repository.status = "completed" ∧
    (analyze_with_checkpoints aRL {} { status := "running" } [] []
        files12 5).1.session.status = "running" ∧
    (analyze_with_checkpoints aRL {} { status := "running" } [] []
        files12 5).1.session.files_failed = 1 := by
  decide

/- Analyzer for the C2 failing input: file a raises, file b succeeds. -/
def aC2 : FileInfo → FileOutcome := fun f =>
  if f.path = "a" then .otherError else .ok []

/-- Claim C2 fails on the code: on a fresh session with two files where the
first file's analysis raises and the second succeeds, the runner sets
session.files_analyzed to the 1-based position of the successful file
(index + 1 = 2) instead of the number of analyzed files, so
files_analyzed + files_failed = 3 exceeds total_files = 2 after the second
per-file step: the failed file is counted by both counters. -/
theorem C2_invariant_violation :
    (analyze_with_checkpoints aC2 {} {} [] [] [⟨"a", ""⟩, ⟨"b", ""⟩]
        5).1.session.total_files = 2 ∧
    (analyze_with_checkpoints aC2 {} {} [] [] [⟨"a", ""⟩, ⟨"b", ""⟩]
        5).1.session.files_analyzed = 2 ∧
    (analyze_with_checkpoints aC2 {} {} [] [] [⟨"a", ""⟩, ⟨"b", ""⟩]
        5).1.session.files_failed = 1 ∧
    ¬((analyze_with_checkpoints aC2 {} {} [] [] [⟨"a", ""⟩, ⟨"b", ""⟩]
          5).1.session.files_analyzed +
        (analyze_with_checkpoints aC2 {} {} [] [] [⟨"a", ""⟩, ⟨"b", ""⟩]
            5).1.session.files_failed ≤
      (analyze_with_checkpoints aC2 {} {} [] [] [⟨"a", ""⟩, ⟨"b", ""⟩]
          5).1.session.total_files) := by
  decide

/- Invariant carried by the checkpoint rows a run creates: every number
created so far exceeds the counter value the run started from, is bounded
by the current counter, and the numbers are strictly increasing. -/
def CheckpointInv (c0 : Nat) (st : RunState) : Prop :=
  c0 ≤ st.checkpoint_counter ∧
    (∀ c ∈ st.new_checkpoints,
      c0 < c.checkpoint_number ∧ c.checkpoint_number ≤ st.checkpoint_counter) ∧
    List.Chain' (fun x y => x.checkpoint_number < y.checkpoint_number) st.new_checkpoints

theorem stepCheckpoint_inv (K index c0 : Nat) (st : RunState)
    (h : CheckpointInv c0 st) : CheckpointInv c0 (stepCheckpoint K index st) := by
  rcases h with ⟨h0, h1, h2⟩
  unfold stepCheckpoint
  split
  · refine ⟨by simpa using Nat.le_succ_of_le h0, ?_, ?_⟩
    · intro c hc
      rcases List.mem_append.mp hc with hx | hx
      · rcases h1 c hx with ⟨ha, hb⟩
        exact ⟨ha, by simpa using Nat.le_succ_of_le hb⟩
      · rw [List.mem_singleton.mp hx]
        exact ⟨Nat.lt_succ_of_le h0, by simp⟩
    · rw [List.chain'_append]
      refine ⟨h2, List.chain'_singleton _, ?_⟩
      intro x hx y hy
      simp only [List.head?_cons, Option.mem_def, Option.some.injEq] at hy
      have hxm : x ∈ st.new_checkpoints := by
        rcases List.mem_getLast?_eq_getLast hx with ⟨hne, hxe⟩
        rw [hxe]
        exact List.getLast_mem hne
      rw [← hy]
      exact Nat.lt_succ_of_le (h1 x hxm).2
  · exact ⟨h0, h1, h2⟩

theorem stepFile_inv (a : FileInfo → FileOutcome) (K index c0 : Nat) (f : FileInfo)
    (st : RunState) (h : CheckpointInv c0 st) :
    CheckpointInv c0 (stepFile a K index f st) := by
  by_cases hm : f.path ∈ st.processed_files
  · rw [stepFile_mem a K index hm]; exact h
  · cases hA : a f with
    | ok tasks =>
        rw [stepFile_ok a K index hm hA]
        exact stepCheckpoint_inv K index c0 _ h
    | rateLimitError => rw [stepFile_err a K index hm (by rw [hA]; rfl)]; exact h
    | networkError => rw [stepFile_err a K index hm (by rw [hA]; rfl)]; exact h
    | apiError => rw [stepFile_err a K index hm (by rw [hA]; rfl)]; exact h
    | parsingError => rw [stepFile_err a K index hm (by rw [hA]; rfl)]; exact h
    | otherError => rw [stepFile_err a K index hm (by rw [hA]; rfl)]; exact h

theorem runFiles_inv (a : FileInfo → FileOutcome) (K : Nat) (files : List FileInfo) :
    ∀ (index c0 : Nat) (st : RunState), CheckpointInv c0 st →
      CheckpointInv c0 (runFiles a K files index st) := by
  induction files with
  | nil => intro _ _ st h; exact h
  | cons f rest ih =>
      intro index c0 st h
      rw [runFiles]
      exact ih _ c0 _ (stepFile_inv a K index c0 f st h)

/- Number of new checkpoints in a fresh all-success no-duplicate run: one
per position divisible by K. -/
theorem runFiles_checkpoint_count (a : FileInfo → FileOutcome) (K : Nat)
    (files : List FileInfo) :
    ∀ (index : Nat) (st : RunState),
      (∀ f ∈ files, (a f).isOk = true) →
      (∀ f ∈ files, f.path ∉ st.processed_files) →
      (files.map FileInfo.path).Nodup →
      (runFiles a K files index st).new_checkpoints.length =
        st.new_checkpoints.length + ((index + files.length) / K - index / K) := by
  induction files with
  | nil => intro index st _ _ _; simp [runFiles]
  | cons f rest ih =>
      intro index st hok hfresh hnd
      have hfo : (a f).isOk = true := hok f (List.mem_cons_self f rest)
      have hfm : f.path ∉ st.processed_files := hfresh f (List.mem_cons_self f rest)
      cases hA : a f with
      | rateLimitError => rw [hA] at hfo; cases hfo
      | networkError => rw [hA] at hfo; cases hfo
      | apiError => rw [hA] at hfo; cases hfo
      | parsingError => rw [hA] at hfo; cases hfo
      | otherError => rw [hA] at hfo; cases hfo
      | ok tasks =>
          rw [runFiles, stepFile_ok a K index hfm hA]
          have hnd' : (rest.map FileInfo.path).Nodup := by
            simpa using List.Nodup.of_cons (by simpa using hnd)
          have hfp : f.path ∉ rest.map FileInfo.path := by
            have := hnd
            simp only [List.map_cons, List.nodup_cons] at this
            exact this.1
          have hfresh' : ∀ g ∈ rest,
              g.path ∉ (stepCheckpoint K index
                { st with
                  analyzed_log := st.analyzed_log ++ [f.path]
                  all_task := st.all_task ++ tasks
                  processed_files := st.processed_files ++ [f.path]
                  session :=
                    { st.session with
                      vulnerabilities_found :=
                        if tasks.isEmpty then st.session.vulnerabilities_found
                        else st.all_task.length + tasks.length
                      files_analyzed := index + 1
                      last_checkpoint_at_set := true } }).processed_files := by
            intro g hg
            rw [stepCheckpoint_processed]
            intro hmem
            rcases List.mem_append.mp hmem with hx | hx
            · exact hfresh g (List.mem_cons_of_mem f hg) hx
            · exact hfp (List.mem_singleton.mp hx ▸ List.mem_map_of_mem FileInfo.path hg)
          rw [ih (index + 1) _ (fun g hg => hok g (List.mem_cons_of_mem f hg)) hfresh' hnd']
          have hdvd : ((index + 1) % K = 0) ↔ K ∣ index + 1 :=
            Nat.dvd_iff_mod_eq_zero.symm
          have hsucc : (index + 1) / K = index / K + if K ∣ index + 1 then 1 else 0 :=
            Nat.succ_div index K
          have hmono : (index + 1) / K ≤ (index + 1 + rest.length) / K :=
            Nat.div_le_div_right (by omega)
          have hcomm : index + 1 + rest.length = index + (rest.length + 1) := by omega
          rw [hcomm] at hmono
          rw [hcomm]
          unfold stepCheckpoint
          split
          case isTrue hz =>
            have hd : K ∣ index + 1 := hdvd.mp hz
            rw [if_pos hd] at hsucc
            simp only [List.length_append, List.length_cons, List.length_nil]
            omega
          case isFalse hz =>
            have hd : ¬ K ∣ index + 1 := fun hcon => hz (hdvd.mpr hcon)
            rw [if_neg hd] at hsucc
            simp only [List.length_cons]
            omega

/-- Claim C3 (amended): the runner creates a checkpoint when a file at a
1-based position divisible by K is successfully analyzed in this run — the
cadence is keyed to file position, not to the count of newly processed
files.  checkpoint_number values are strictly increasing and continue from
the resumed checkpoint's number; and in a fresh run in which every file
succeeds and no path repeats, exactly floor(N/K) checkpoints are created. -/
theorem C3_checkpoint_cadence (a : FileInfo → FileOutcome) (K : Nat)
    (repository : Repo) (session : AnalysisSession) (cps : List CheckPointRec)
    (db0 : List String) (files : List FileInfo) (hK : 0 < K) :
    List.Chain' (fun x y => x.checkpoint_number < y.checkpoint_number)
      (analyze_with_checkpoints a repository session cps db0 files
        K).1.new_checkpoints ∧
    (∀ cp : CheckPointRec, latest_checkpoint cps = some cp →
      ∀ c ∈ (analyze_with_checkpoints a repository session cps db0 files
          K).1.new_checkpoints,
        cp.checkpoint_number < c.checkpoint_number) ∧
    (cps = [] → (∀ f ∈ files, (a f).isOk = true) →
      (files.map FileInfo.path).Nodup →
      (analyze_with_checkpoints a repository session cps db0 files
          K).1.new_checkpoints.length = files.length / K) := by
  have hK' := hK
  refine ⟨?_, ?_, ?_⟩
  · cases hl : latest_checkpoint cps with
    | none =>
        simp only [analyze_with_checkpoints, hl]
        have h := runFiles_inv a K files 0 0
          { session := { session with total_files := files.length }
            repository := repository
            processed_files := []
            all_task := []
            checkpoint_counter := 0
            new_checkpoints := []
            analyzed_log := [] }
          ⟨le_refl 0, fun c hc => absurd hc (List.not_mem_nil c), List.chain'_nil⟩
        exact h.2.2
    | some cp =>
        simp only [analyze_with_checkpoints, hl]
        have h := runFiles_inv a K files 0 cp.checkpoint_number
          { session := { session with total_files := files.length }
            repository := repository
            processed_files := cp.files_processed
            all_task := []
            checkpoint_counter := cp.checkpoint_number
            new_checkpoints := []
            analyzed_log := [] }
          ⟨le_refl _, fun c hc => absurd hc (List.not_mem_nil c), List.chain'_nil⟩
        exact h.2.2
  · intro cp hl c hc
    simp only [analyze_with_checkpoints, hl] at hc
    have h := runFiles_inv a K files 0 cp.checkpoint_number
      { session := { session with total_files := files.length }
        repository := repository
        processed_files := cp.files_processed
        all_task := []
        checkpoint_counter := cp.checkpoint_number
        new_checkpoints := []
        analyzed_log := [] }
      ⟨le_refl _, fun c hc => absurd hc (List.not_mem_nil c), List.chain'_nil⟩
    exact (h.2.1 c hc).1
  · intro hcps hok hnd
    subst hcps
    simp only [analyze_with_checkpoints, latest_checkpoint]
    rw [runFiles_checkpoint_count a K files 0
      { session := { session with total_files := files.length }
        repository := repository
        processed_files := []
        all_task := []
        checkpoint_counter := 0
        new_checkpoints := []
        analyzed_log := [] }
      hok (fun f _ => List.not_mem_nil f.path) hnd]
    simp

theorem C3_checkpoint_cadence_witness :
    0 < 5 ∧
    (analyze_with_checkpoints aEx {} {} [] [] files12 5).1.new_checkpoints.length =
      files12.length / 5 ∧
    files12.length / 5 = 2 :=
  ⟨by decide,
    (C3_checkpoint_cadence aEx 5 {} {} [] [] files12 (by decide)).2.2 rfl
      (by decide) (by decide),
    by decide⟩

/- Analyzer for the C3 counterexample: file e (position 5 of 12) fails with
a network error, every other file succeeds. -/
def aC3 : FileInfo → FileOutcome := fun f =>
  if f.path = "e" then .networkError else .ok []

/-- Claim C3 fails as stated: with K = 5 and twelve files where the file at
position 5 raises and the other eleven are newly and successfully
processed, the run creates 1 checkpoint (at position 10), not
floor(11/5) = 2: the cadence counts file positions, and a failure at a
multiple-of-K position drops that checkpoint. -/
theorem C3_counterexample :
    (analyze_with_checkpoints aC3 {} {} [] [] files12 5).1.processed_files.length = 11 ∧
    (analyze_with_checkpoints aC3 {} {} [] [] files12 5).1.new_checkpoints.length = 1 ∧
    (analyze_with_checkpoints aC3 {} {} [] [] files12 5).1.new_checkpoints.length ≠
      (analyze_with_checkpoints aC3 {} {} [] [] files12 5).1.processed_files.length / 5 := by
  decide

/- Task (apps/task/models.py), restricted to the columns the orchestrator
reads or writes; field defaults are the Django column defaults (None text
columns are "", verified_at is tracked as a boolean marker). -/
structure OTask where
  status : String := "pending"
  test_status : String := "pending"
  fix_status : String := "pending"
  test_code : String := ""
  fix_code : String := ""
  validation_message : String := ""
  retry_count : Nat := 0
  verified_at_set : Bool := false
  pr_url : Option String := none
deriving DecidableEq, Repr

/- TestResult dataclass (test_runner.py lines 14-28). -/
structure TestResult where
  passed : Bool
  output : String
  error : String
  timed_out : Bool := false
deriving DecidableEq, Repr

/- Outcome of one external call: normal return or a raised exception
carrying its message. -/
inductive CallResult (α : Type) where
  | ok (v : α)
  | exn (msg : String)
deriving DecidableEq, Repr

/- External collaborators of VerificationOrchestrator as oracles.  The
fix-generation and fix-verification oracles are indexed by the value of
task.retry_count at the moment of the call, so the retry attempt may behave
differently from the first. -/
structure OrchEnv where
  generate_test : CallResult String
  run_test : CallResult TestResult
  generate_fix : Nat → CallResult String
  run_test_with_fix : Nat → CallResult TestResult
  get_client : CallResult Unit
  create_fix_branch : CallResult String
  commit_fix : CallResult String
  create_pull_request : CallResult String

inductive OrchEvent where
  | genTestCall
  | runTestCall
  | genFixCall (attempt : Nat)
  | runFixCall (attempt : Nat)
  | prCall
deriving DecidableEq, Repr

/- Orchestrator state: the task row, the snapshots written by task.save()
(the row as first loaded comes first), and the external calls made. -/
structure OrchState where
  task : OTask
  trace : List OTask
  events : List OrchEvent
deriving DecidableEq, Repr

/- task.save(): append a snapshot of the row to the trace. -/
def save (st : OrchState) : OrchState :=
  { st with trace := st.trace ++ [st.task] }

def MAX_RETRIES : Nat := 1

/- VerificationOrchestrator._generate_test (lines 90-124).  Python
falsiness of the returned code ("" or None) is the empty string. -/
def generate_test_step (env : OrchEnv) (st : OrchState) : OrchState × Bool :=
  let stc := { st with events := st.events ++ [OrchEvent.genTestCall] }
  match env.generate_test with
  | .ok code =>
    if code = "" then
      (save { stc with task := { stc.task with
          test_status := "error"
          validation_message := "Failed to generate test code" } }, false)
    else
      (save { stc with task := { stc.task with
          test_code := code
          test_status := "generated" } }, true)
  | .exn e =>
    (save { stc with task := { stc.task with
        test_status := "error"
        validation_message := e } }, false)

/- VerificationOrchestrator._verify_vulnerability_exists (lines 126-179). -/
def verify_vulnerability_exists (env : OrchEnv) (st : OrchState) : OrchState × Bool :=
  let stc := { st with events := st.events ++ [OrchEvent.runTestCall] }
  match env.run_test with
  | .ok r =>
    if r.passed then
      (save { stc with task := { stc.task with
          test_status := "passed"
          status := "false_positive"
          validation_message :=
            "Test passed on first run - vulnerability does not exist" } }, false)
    else
      (save { stc with task := { stc.task with
          test_status := "failed"
          validation_message :=
            "Test output: " ++ r.output ++ "\nError: " ++ r.error } }, true)
  | .exn e =>
    (save { stc with task := { stc.task with
        test_status := "error"
        validation_message := e } }, false)

/- VerificationOrchestrator._generate_fix (lines 234-269). -/
def generate_fix_step (env : OrchEnv) (st : OrchState) : OrchState × Bool :=
  let stc := { st with events := st.events ++ [OrchEvent.genFixCall st.task.retry_count] }
  match env.generate_fix st.task.retry_count with
  | .ok code =>
    if code = "" then
      (save { stc with task := { stc.task with
          fix_status := "failed"
          validation_message := "Failed to generate fix code" } }, false)
    else
      (save { stc with task := { stc.task with
          fix_code := code
          fix_status := "generated" } }, true)
  | .exn e =>
    (save { stc with task := { stc.task with
        fix_status := "failed"
        validation_message := e } }, false)

/- VerificationOrchestrator._verify_fix (lines 271-325). -/
def verify_fix_step (env : OrchEnv) (st : OrchState) : OrchState × Bool :=
  let stc := { st with events := st.events ++ [OrchEvent.runFixCall st.task.retry_count] }
  match env.run_test_with_fix st.task.retry_count with
  | .ok r =>
    if r.passed then
      (save { stc with task := { stc.task with
          test_status := "passed"
          fix_status := "verified"
          validation_message :=
            "Fix verified successfully\nTest output: " ++ r.output } }, true)
    else
      (save { stc with task := { stc.task with
          fix_status := "failed"
          validation_message :=
            "Fix did not resolve the issue\nTest output: " ++ r.output
              ++ "\nError: " ++ r.error } }, false)
  | .exn e =>
    (save { stc with task := { stc.task with
        fix_status := "failed"
        validation_message := e } }, false)

theorem generate_fix_step_retry (env : OrchEnv) (st : OrchState) :
    (generate_fix_step env st).1.task.retry_count = st.task.retry_count := by
  unfold generate_fix_step save
  cases env.generate_fix st.task.retry_count with
  | ok code => by_cases h : code = "" <;> simp [h]
  | exn e => rfl

theorem verify_fix_step_retry (env : OrchEnv) (st : OrchState) :
    (verify_fix_step env st).1.task.retry_count = st.task.retry_count := by
  unfold verify_fix_step save
  cases env.run_test_with_fix st.task.retry_count with
  | ok r => by_cases h : r.passed <;> simp [h]
  | exn e => rfl

/- VerificationOrchestrator._generate_and_verify_fix (lines 181-232): the
bounded while loop, entered while task.retry_count <= MAX_RETRIES.  A
generation failure aborts with no retry; a verification failure increments
retry_count, and when retries are exhausted the task is forced to
false_positive / fix failed.  Each iteration that does not return
increments retry_count by one, so the loop runs at most
MAX_RETRIES + 1 - retry_count times; that bound is passed as structural
fuel so the definition computes (the zero-fuel arm is unreachable while
the loop guard holds). -/
def generate_and_verify_fix_go (env : OrchEnv) : Nat → OrchState → OrchState × Bool
  | 0, st => (st, false)
  | fuel + 1, st =>
    if st.task.retry_count ≤ MAX_RETRIES then
      match generate_fix_step env st with
      | (st1, false) => (st1, false)
      | (st1, true) =>
        match verify_fix_step env st1 with
        | (st2, true) => (st2, true)
        | (st2, false) =>
          let st3 := save { st2 with task :=
            { st2.task with retry_count := st2.task.retry_count + 1 } }
          if st3.task.retry_count ≤ MAX_RETRIES then
            generate_and_verify_fix_go env fuel st3
          else
            (save { st3 with task := { st3.task with
                status := "false_positive"
                fix_status := "failed"
                validation_message :=
                  st3.task.validation_message
                    ++ "\n\nFailed after all retry attempts" } }, false)
    else (st, false)

def generate_and_verify_fix (env : OrchEnv) (st : OrchState) : OrchState × Bool :=
  generate_and_verify_fix_go env (MAX_RETRIES + 1 - st.task.retry_count) st

/- verify_and_fix_vulnerability lines 57-75: the three phases and the
success bookkeeping (status completed, verified_at set). -/
def verifyCore (env : OrchEnv) (t0 : OTask) : OrchState × Bool :=
  let st0 : OrchState := { task := t0, trace := [t0], events := [] }
  match generate_test_step env st0 with
  | (st1, false) => (st1, false)
  | (st1, true) =>
    match verify_vulnerability_exists env st1 with
    | (st2, false) => (st2, false)
    | (st2, true) =>
      match generate_and_verify_fix env st2 with
      | (st3, false) => (st3, false)
      | (st3, true) =>
        (save { st3 with task := { st3.task with
            status := "completed"
            verified_at_set := true } }, true)

/- The except handler of _create_github_pr (lines 417-429): re-mark the
task completed, append the failure text to validation_message, save, and
re-raise (the caller's handler only logs). -/
def pr_fail (e : String) (st : OrchState) : OrchState :=
  save { st with task := { st.task with
      status := "completed"
      validation_message :=
        st.task.validation_message ++ "\nPR creation failed: " ++ e } }

/- VerificationOrchestrator._create_github_pr (lines 342-429): client,
branch, commit, pull request; on success record pr_url and the distinct
status "pr_created". -/
def create_github_pr (env : OrchEnv) (st : OrchState) : OrchState :=
  let stc := { st with events := st.events ++ [OrchEvent.prCall] }
  match env.get_client with
  | .exn e => pr_fail e stc
  | .ok _ =>
    match env.create_fix_branch with
    | .exn e => pr_fail e stc
    | .ok _branch =>
      match env.commit_fix with
      | .exn e => pr_fail e stc
      | .ok _sha =>
        match env.create_pull_request with
        | .exn e => pr_fail e stc
        | .ok url =>
          save { stc with task := { stc.task with
              pr_url := some url
              status := "pr_created" } }

/- VerificationOrchestrator.verify_and_fix_vulnerability (lines 39-88):
the PR phase runs only after overall success and only when requested; any
exception it re-raises is swallowed by the surrounding handler, so the
return value stays True. -/
def verify_and_fix_vulnerability (env : OrchEnv) (t0 : OTask) (create_pr : Bool) :
    OrchState × Bool :=
  match verifyCore env t0 with
  | (st, false) => (st, false)
  | (st, true) =>
    if create_pr then (create_github_pr env st, true) else (st, true)

theorem generate_and_verify_fix_go_succ (env : OrchEnv) (fuel : Nat) (st : OrchState) :
    generate_and_verify_fix_go env (fuel + 1) st =
      if st.task.retry_count ≤ MAX_RETRIES then
        match generate_fix_step env st with
        | (st1, false) => (st1, false)
        | (st1, true) =>
          match verify_fix_step env st1 with
          | (st2, true) => (st2, true)
          | (st2, false) =>
            let st3 := save { st2 with task :=
              { st2.task with retry_count := st2.task.retry_count + 1 } }
            if st3.task.retry_count ≤ MAX_RETRIES then
              generate_and_verify_fix_go env fuel st3
            else
              (save { st3 with task := { st3.task with
                  status := "false_positive"
                  fix_status := "failed"
                  validation_message :=
                    st3.task.validation_message
                      ++ "\n\nFailed after all retry attempts" } }, false)
      else (st, false) := rfl

theorem generate_and_verify_fix_gt (env : OrchEnv) (st : OrchState)
    (h : ¬ st.task.retry_count ≤ MAX_RETRIES) :
    generate_and_verify_fix env st = (st, false) := by
  unfold generate_and_verify_fix
  have h0 : MAX_RETRIES + 1 - st.task.retry_count = 0 := by omega
  rw [h0]
  rfl

theorem generate_and_verify_fix_le (env : OrchEnv) (st : OrchState)
    (h : st.task.retry_count ≤ MAX_RETRIES) :
    generate_and_verify_fix env st =
      match generate_fix_step env st with
      | (st1, false) => (st1, false)
      | (st1, true) =>
        match verify_fix_step env st1 with
        | (st2, true) => (st2, true)
        | (st2, false) =>
          if st2.task.retry_count + 1 ≤ MAX_RETRIES then
            generate_and_verify_fix env
              { task := { st2.task with retry_count := st2.task.retry_count + 1 }
                trace := st2.trace ++
                  [{ st2.task with retry_count := st2.task.retry_count + 1 }]
                events := st2.events }
          else
            ({ task := { st2.task with
                  retry_count := st2.task.retry_count + 1
                  status := "false_positive"
                  fix_status := "failed"
                  validation_message := st2.task.validation_message
                    ++ "\n\nFailed after all retry attempts" }
               trace := st2.trace ++
                 [{ st2.task with retry_count := st2.task.retry_count + 1 }] ++
                 [{ st2.task with
                     retry_count := st2.task.retry_count + 1
                     status := "false_positive"
                     fix_status := "failed"
                     validation_message := st2.task.validation_message
                       ++ "\n\nFailed after all retry attempts" }]
               events := st2.events }, false) := by
  have hr1 := generate_fix_step_retry env st
  have hfu : MAX_RETRIES + 1 - st.task.retry_count =
      (MAX_RETRIES - st.task.retry_count) + 1 := by omega
  show generate_and_verify_fix_go env (MAX_RETRIES + 1 - st.task.retry_count) st = _
  rw [hfu, generate_and_verify_fix_go_succ, if_pos h]
  rcases hgen : generate_fix_step env st with ⟨st1, b1⟩
  rw [hgen] at hr1
  cases b1
  · rfl
  · dsimp only
    have hr2 := verify_fix_step_retry env st1
    rcases hver : verify_fix_step env st1 with ⟨st2, b2⟩
    rw [hver] at hr2
    cases b2
    case true => rfl
    case false =>
      dsimp only
      simp only at hr1 hr2
      have hfu2 : MAX_RETRIES - st.task.retry_count =
          MAX_RETRIES + 1 - (st2.task.retry_count + 1) := by omega
      rw [hfu2]
      unfold generate_and_verify_fix
      simp only [save]

theorem generate_test_step_spec (env : OrchEnv) (st : OrchState) :
    ∃ l, (generate_test_step env st).1.trace = st.trace ++ l ∧
      (∀ x ∈ l, x.status = st.task.status) ∧
      (generate_test_step env st).1.task.status = st.task.status ∧
      (generate_test_step env st).1.task.retry_count = st.task.retry_count ∧
      (generate_test_step env st).1.task.pr_url = st.task.pr_url ∧
      (generate_test_step env st).1.task.fix_code = st.task.fix_code := by
  unfold generate_test_step save
  cases env.generate_test with
  | ok code =>
      dsimp only
      by_cases hc : code = ""
      · rw [if_pos hc]
        refine ⟨_, rfl, ?_, ?_, ?_, ?_, ?_⟩ <;> simp
      · rw [if_neg hc]
        refine ⟨_, rfl, ?_, ?_, ?_, ?_, ?_⟩ <;> simp
  | exn e =>
      dsimp only
      refine ⟨_, rfl, ?_, ?_, ?_, ?_, ?_⟩ <;> simp

theorem verify_vulnerability_exists_safe (env : OrchEnv) (st : OrchState) :
    ∃ l, (verify_vulnerability_exists env st).1.trace = st.trace ++ l ∧
      (∀ x ∈ l, x.status = st.task.status ∨ x.status = "false_positive") ∧
      ((verify_vulnerability_exists env st).1.task.status = st.task.status ∨
        (verify_vulnerability_exists env st).1.task.status = "false_positive") ∧
      (verify_vulnerability_exists env st).1.task.retry_count = st.task.retry_count ∧
      (verify_vulnerability_exists env st).1.task.pr_url = st.task.pr_url ∧
      (verify_vulnerability_exists env st).1.task.fix_code = st.task.fix_code := by
  unfold verify_vulnerability_exists save
  cases env.run_test with
  | ok r =>
      dsimp only
      by_cases hp : r.passed
      · rw [if_pos hp]
        refine ⟨_, rfl, ?_, ?_, ?_, ?_, ?_⟩ <;> simp
      · rw [if_neg hp]
        refine ⟨_, rfl, ?_, ?_, ?_, ?_, ?_⟩ <;> simp
  | exn e =>
      dsimp only
      refine ⟨_, rfl, ?_, ?_, ?_, ?_, ?_⟩ <;> simp

theorem verify_vulnerability_exists_true (env : OrchEnv) (st st' : OrchState)
    (h : verify_vulnerability_exists env st = (st', true)) :
    st'.trace = st.trace ++ [st'.task] ∧ st'.task.test_status = "failed" ∧
      st'.task.status = st.task.status ∧
      st'.task.retry_count = st.task.retry_count ∧
      st'.task.pr_url = st.task.pr_url ∧
      st'.task.fix_code = st.task.fix_code := by
  unfold verify_vulnerability_exists save at h
  cases hr : env.run_test with
  | ok r =>
      rw [hr] at h
      dsimp only at h
      by_cases hp : r.passed
      · rw [if_pos hp] at h
        cases h
      · rw [if_neg hp] at h
        cases h
        refine ⟨rfl, ?_, ?_, ?_, ?_, ?_⟩ <;> simp
  | exn e =>
      rw [hr] at h
      dsimp only at h
      cases h

theorem generate_fix_step_spec (env : OrchEnv) (st : OrchState) :
    ∃ l, (generate_fix_step env st).1.trace = st.trace ++ l ∧
      (∀ x ∈ l, x.status = st.task.status) ∧
      (generate_fix_step env st).1.task.status = st.task.status ∧
      (generate_fix_step env st).1.task.retry_count = st.task.retry_count ∧
      (generate_fix_step env st).1.task.pr_url = st.task.pr_url ∧
      (generate_fix_step env st).1.task.test_status = st.task.test_status := by
  unfold generate_fix_step save
  cases env.generate_fix st.task.retry_count with
  | ok code =>
      dsimp only
      by_cases hc : code = ""
      · rw [if_pos hc]
        refine ⟨_, rfl, ?_, ?_, ?_, ?_, ?_⟩ <;> simp
      · rw [if_neg hc]
        refine ⟨_, rfl, ?_, ?_, ?_, ?_, ?_⟩ <;> simp
  | exn e =>
      dsimp only
      refine ⟨_, rfl, ?_, ?_, ?_, ?_, ?_⟩ <;> simp

theorem verify_fix_step_spec (env : OrchEnv) (st : OrchState) :
    ∃ l, (verify_fix_step env st).1.trace = st.trace ++ l ∧
      (∀ x ∈ l, x.status = st.task.status) ∧
      (verify_fix_step env st).1.task.status = st.task.status ∧
      (verify_fix_step env st).1.task.retry_count = st.task.retry_count ∧
      (verify_fix_step env st).1.task.pr_url = st.task.pr_url := by
  unfold verify_fix_step save
  cases env.run_test_with_fix st.task.retry_count with
  | ok r =>
      dsimp only
      by_cases hp : r.passed
      · rw [if_pos hp]
        refine ⟨_, rfl, ?_, ?_, ?_, ?_⟩ <;> simp
      · rw [if_neg hp]
        refine ⟨_, rfl, ?_, ?_, ?_, ?_⟩ <;> simp
  | exn e =>
      dsimp only
      refine ⟨_, rfl, ?_, ?_, ?_, ?_⟩ <;> simp

theorem verify_fix_step_true (env : OrchEnv) (st st' : OrchState)
    (h : verify_fix_step env st = (st', true)) :
    st'.trace = st.trace ++ [st'.task] ∧ st'.task.fix_status = "verified" ∧
      st'.task.test_status = "passed" ∧
      st'.task.status = st.task.status ∧
      st'.task.retry_count = st.task.retry_count ∧
      st'.task.pr_url = st.task.pr_url := by
  unfold verify_fix_step save at h
  cases hr : env.run_test_with_fix st.task.retry_count with
  | ok r =>
      rw [hr] at h
      dsimp only at h
      by_cases hp : r.passed
      · rw [if_pos hp] at h
        cases h
        refine ⟨rfl, ?_, ?_, ?_, ?_, ?_⟩ <;> simp
      · rw [if_neg hp] at h
        cases h
  | exn e =>
      rw [hr] at h
      dsimp only at h
      cases h

/- Snapshots appended by the fix loop keep the task status except for the
exhaustion save, which writes false_positive; the final task status is
either unchanged or false_positive, and pr_url is never touched. -/
theorem generate_and_verify_fix_safe (env : OrchEnv) :
    ∀ (n : Nat) (st : OrchState), MAX_RETRIES + 1 - st.task.retry_count ≤ n →
      ∃ l, (generate_and_verify_fix env st).1.trace = st.trace ++ l ∧
        (∀ x ∈ l, x.status = st.task.status ∨ x.status = "false_positive") ∧
        ((generate_and_verify_fix env st).1.task.status = st.task.status ∨
          (generate_and_verify_fix env st).1.task.status = "false_positive") ∧
        (generate_and_verify_fix env st).1.task.pr_url = st.task.pr_url := by
  intro n
  induction n with
  | zero =>
      intro st hn
      have hgt : ¬ st.task.retry_count ≤ MAX_RETRIES := by omega
      rw [generate_and_verify_fix_gt env st hgt]
      exact ⟨[], by simp, by simp, Or.inl rfl, rfl⟩
  | succ n ih =>
      intro st hn
      by_cases h0 : st.task.retry_count ≤ MAX_RETRIES
      case neg =>
        rw [generate_and_verify_fix_gt env st h0]
        exact ⟨[], by simp, by simp, Or.inl rfl, rfl⟩
      case pos =>
      rw [generate_and_verify_fix_le env st h0]
      rcases hgen : generate_fix_step env st with ⟨st1, b1⟩
      have hg := generate_fix_step_spec env st
      rw [hgen] at hg
      rcases hg with ⟨lg, hg1, hg2, hg3, hg4, hg5, hg6⟩
      cases b1 with
      | false => exact ⟨lg, hg1, fun x hx => Or.inl (hg2 x hx), Or.inl hg3, hg5⟩
      | true =>
          dsimp only
          rcases hver : verify_fix_step env st1 with ⟨st2, b2⟩
          have hv := verify_fix_step_spec env st1
          rw [hver] at hv
          rcases hv with ⟨lv, hv1, hv2, hv3, hv4, hv5⟩
          simp only at hg1 hg3 hg4 hg5 hv1 hv3 hv4 hv5
          cases b2 with
          | true =>
              refine ⟨lg ++ lv, by rw [hv1, hg1, List.append_assoc], ?_,
                Or.inl (by rw [hv3, hg3]), by rw [hv5, hg5]⟩
              intro x hx
              rcases List.mem_append.mp hx with hx | hx
              · exact Or.inl (hg2 x hx)
              · exact Or.inl (hg3 ▸ hv2 x hx)
          | false =>
              dsimp only
              split
              case isTrue h2 =>
                rcases ih
                    { task := { st2.task with retry_count := st2.task.retry_count + 1 },
                      trace := st2.trace ++
                        [{ st2.task with retry_count := st2.task.retry_count + 1 }],
                      events := st2.events }
                    (by simp only; omega) with ⟨li, hi1, hi2, hi3, hi4⟩
                simp only at hi1 hi2 hi3 hi4
                refine ⟨lg ++ (lv ++ ([{ st2.task with
                    retry_count := st2.task.retry_count + 1 }] ++ li)), ?_, ?_, ?_, ?_⟩
                · rw [hi1, hv1, hg1]
                  simp [List.append_assoc]
                · intro x hx
                  rcases List.mem_append.mp hx with hx | hx
                  · exact Or.inl (hg2 x hx)
                  rcases List.mem_append.mp hx with hx | hx
                  · exact Or.inl (hg3 ▸ hv2 x hx)
                  rcases List.mem_append.mp hx with hx | hx
                  · rw [List.mem_singleton.mp hx]
                    exact Or.inl (by simp only; rw [hv3, hg3])
                  · rcases hi2 x hx with hxx | hxx
                    · exact Or.inl (by rw [hxx]; show st2.task.status = st.task.status; rw [hv3, hg3])
                    · exact Or.inr hxx
                · rcases hi3 with hxx | hxx
                  · exact Or.inl (by rw [hxx]; show st2.task.status = st.task.status; rw [hv3, hg3])
                  · exact Or.inr hxx
                · rw [hi4]
                  show st2.task.pr_url = st.task.pr_url
                  rw [hv5, hg5]
              case isFalse h2 =>
                refine ⟨lg ++ (lv ++ ([{ st2.task with
                    retry_count := st2.task.retry_count + 1 }] ++
                    [{ st2.task with
                        retry_count := st2.task.retry_count + 1
                        status := "false_positive"
                        fix_status := "failed"
                        validation_message := st2.task.validation_message
                          ++ "\n\nFailed after all retry attempts" }])), ?_, ?_, ?_, ?_⟩
                · simp only
                  rw [hv1, hg1]
                  simp [List.append_assoc]
                · intro x hx
                  rcases List.mem_append.mp hx with hx | hx
                  · exact Or.inl (hg2 x hx)
                  rcases List.mem_append.mp hx with hx | hx
                  · exact Or.inl (hg3 ▸ hv2 x hx)
                  rcases List.mem_append.mp hx with hx | hx
                  · rw [List.mem_singleton.mp hx]
                    exact Or.inl (by simp only; rw [hv3, hg3])
                  · rw [List.mem_singleton.mp hx]
                    exact Or.inr (by simp only)
                · exact Or.inr (by simp only)
                · simp only
                  rw [hv5, hg5]

/- When the fix loop succeeds, its last save is the fix-verified snapshot:
the trace grew, its last element is the final task, fix_status is
"verified", test_status "passed", and status / pr_url are untouched. -/
theorem generate_and_verify_fix_true (env : OrchEnv) :
    ∀ (n : Nat) (st st' : OrchState), MAX_RETRIES + 1 - st.task.retry_count ≤ n →
      generate_and_verify_fix env st = (st', true) →
      ∃ l, st'.trace = st.trace ++ l ∧ l ≠ [] ∧ l.getLast? = some st'.task ∧
        st'.task.fix_status = "verified" ∧ st'.task.test_status = "passed" ∧
        st'.task.status = st.task.status ∧ (∀ x ∈ l, x.status = st.task.status) ∧
        st'.task.pr_url = st.task.pr_url := by
  intro n
  induction n with
  | zero =>
      intro st st' hn h
      have hgt : ¬ st.task.retry_count ≤ MAX_RETRIES := by omega
      rw [generate_and_verify_fix_gt env st hgt] at h
      exact absurd (congrArg Prod.snd h) (by simp)
  | succ n ih =>
      intro st st' hn h
      by_cases h0 : st.task.retry_count ≤ MAX_RETRIES
      case neg =>
        rw [generate_and_verify_fix_gt env st h0] at h
        exact absurd (congrArg Prod.snd h) (by simp)
      case pos =>
      rw [generate_and_verify_fix_le env st h0] at h
      rcases hgen : generate_fix_step env st with ⟨st1, b1⟩
      rw [hgen] at h
      have hg := generate_fix_step_spec env st
      rw [hgen] at hg
      rcases hg with ⟨lg, hg1, hg2, hg3, hg4, hg5, hg6⟩
      simp only at hg1 hg3 hg4 hg5
      cases b1 with
      | false => exact absurd (congrArg Prod.snd h) (by simp)
      | true =>
          dsimp only at h
          rcases hver : verify_fix_step env st1 with ⟨st2, b2⟩
          rw [hver] at h
          cases b2 with
          | true =>
              dsimp only at h
              have hst : st2 = st' := congrArg Prod.fst h
              subst hst
              rcases verify_fix_step_true env st1 st2 hver with
                ⟨ht1, ht2, ht3, ht4, ht5, ht6⟩
              refine ⟨lg ++ [st2.task], by rw [ht1, hg1, List.append_assoc],
                by simp, ?_, ht2, ht3, by rw [ht4, hg3], ?_, by rw [ht6, hg5]⟩
              · rw [List.getLast?_append_of_ne_nil lg (by simp)]
                rfl
              · intro x hx
                rcases List.mem_append.mp hx with hx | hx
                · exact hg2 x hx
                · rw [List.mem_singleton.mp hx, ht4, hg3]
          | false =>
              dsimp only at h
              have hv := verify_fix_step_spec env st1
              rw [hver] at hv
              rcases hv with ⟨lv, hv1, hv2, hv3, hv4, hv5⟩
              simp only at hv1 hv3 hv4 hv5
              rw [if_pos ?hle] at h
              case hle =>
                by_contra hle
                rw [if_neg hle] at h
                exact absurd (congrArg Prod.snd h) (by simp)
              rcases ih
                  { task := { st2.task with retry_count := st2.task.retry_count + 1 },
                    trace := st2.trace ++
                      [{ st2.task with retry_count := st2.task.retry_count + 1 }],
                    events := st2.events }
                  st' (by simp only; omega) h with
                ⟨li, hi1, hi2, hi3, hi4, hi5, hi6, hi7, hi8⟩
              simp only at hi1 hi6 hi7 hi8
              refine ⟨lg ++ (lv ++ ([{ st2.task with
                  retry_count := st2.task.retry_count + 1 }] ++ li)), ?_,
                by simp, ?_, hi4, hi5, ?_, ?_, ?_⟩
              · rw [hi1, hv1, hg1]
                simp [List.append_assoc]
              · rw [List.getLast?_append_of_ne_nil _ (by simp [hi2]),
                  List.getLast?_append_of_ne_nil _ (by simp [hi2]),
                  List.getLast?_append_of_ne_nil _ hi2]
                exact hi3
              · rw [hi6]
                show st2.task.status = st.task.status
                rw [hv3, hg3]
              · intro x hx
                rcases List.mem_append.mp hx with hx | hx
                · exact hg2 x hx
                rcases List.mem_append.mp hx with hx | hx
                · exact hg3 ▸ hv2 x hx
                rcases List.mem_append.mp hx with hx | hx
                · rw [List.mem_singleton.mp hx]
                  show st2.task.status = st.task.status
                  rw [hv3, hg3]
                · have := hi7 x hx
                  rw [this]
                  show st2.task.status = st.task.status
                  rw [hv3, hg3]
              · rw [hi8]
                show st2.task.pr_url = st.task.pr_url
                rw [hv5, hg5]

theorem create_github_pr_trace (env : OrchEnv) (st : OrchState) :
    ∃ l, (create_github_pr env st).trace = st.trace ++ l := by
  unfold create_github_pr pr_fail save
  cases env.get_client with
  | exn e => exact ⟨_, rfl⟩
  | ok u =>
      dsimp only
      cases env.create_fix_branch with
      | exn e => exact ⟨_, rfl⟩
      | ok b =>
          dsimp only
          cases env.commit_fix with
          | exn e => exact ⟨_, rfl⟩
          | ok c =>
              dsimp only
              cases env.create_pull_request with
              | exn e => exact ⟨_, rfl⟩
              | ok url => exact ⟨_, rfl⟩

/- When the core workflow returns False, every snapshot written keeps the
initial status or carries false_positive; in particular nothing is ever
marked completed. -/
theorem verifyCore_false_safe (env : OrchEnv) (t0 : OTask) (st : OrchState)
    (h : verifyCore env t0 = (st, false)) :
    ∀ x ∈ st.trace, x = t0 ∨ x.status = t0.status ∨ x.status = "false_positive" := by
  unfold verifyCore at h
  dsimp only at h
  rcases hA : generate_test_step env { task := t0, trace := [t0], events := [] }
    with ⟨st1, b1⟩
  rw [hA] at h
  have hg := generate_test_step_spec env { task := t0, trace := [t0], events := [] }
  rw [hA] at hg
  rcases hg with ⟨lA, hA1, hA2, hA3, hA4, hA5, hA6⟩
  simp only at hA1 hA2 hA3 hA4 hA5 hA6
  cases b1 with
  | false =>
      dsimp only at h
      cases h
      intro x hx
      rw [hA1] at hx
      rcases List.mem_append.mp hx with hx | hx
      · exact Or.inl (List.mem_singleton.mp hx)
      · exact Or.inr (Or.inl (hA2 x hx))
  | true =>
      dsimp only at h
      rcases hB : verify_vulnerability_exists env st1 with ⟨st2, b2⟩
      rw [hB] at h
      have hv := verify_vulnerability_exists_safe env st1
      rw [hB] at hv
      rcases hv with ⟨lB, hB1, hB2, hB3, hB4, hB5, hB6⟩
      simp only at hB1 hB2 hB3 hB4 hB5 hB6
      cases b2 with
      | false =>
          dsimp only at h
          cases h
          intro x hx
          rw [hB1, hA1] at hx
          rcases List.mem_append.mp hx with hx | hx
          · rcases List.mem_append.mp hx with hx | hx
            · exact Or.inl (List.mem_singleton.mp hx)
            · exact Or.inr (Or.inl (hA2 x hx))
          · rcases hB2 x hx with hxx | hxx
            · exact Or.inr (Or.inl (hA3 ▸ hxx))
            · exact Or.inr (Or.inr hxx)
      | true =>
          dsimp only at h
          rcases hC : generate_and_verify_fix env st2 with ⟨st3, b3⟩
          rw [hC] at h
          have hl := generate_and_verify_fix_safe env (MAX_RETRIES + 1) st2
            (by omega)
          rw [hC] at hl
          rcases hl with ⟨lC, hC1, hC2, hC3, hC4⟩
          simp only at hC1 hC2 hC3 hC4
          cases b3 with
          | false =>
              dsimp only at h
              cases h
              intro x hx
              rw [hC1, hB1, hA1] at hx
              rcases List.mem_append.mp hx with hx | hx
              · rcases List.mem_append.mp hx with hx | hx
                · rcases List.mem_append.mp hx with hx | hx
                  · exact Or.inl (List.mem_singleton.mp hx)
                  · exact Or.inr (Or.inl (hA2 x hx))
                · rcases hB2 x hx with hxx | hxx
                  · exact Or.inr (Or.inl (hA3 ▸ hxx))
                  · exact Or.inr (Or.inr hxx)
              · rcases hC2 x hx with hxx | hxx
                · rcases hB3 with hyy | hyy
                  · exact Or.inr (Or.inl (by rw [hxx, hyy, hA3]))
                  · exact Or.inr (Or.inr (by rw [hxx, hyy]))
                · exact Or.inr (Or.inr hxx)
          | true =>
              dsimp only at h
              exact absurd (congrArg Prod.snd h) (by simp)

/- When the core workflow returns True, the trace decomposes as: snapshots
before the vulnerability was confirmed, the test-failed snapshot, the fix
attempts, the fix-verified snapshot, and the completed snapshot — with
nothing marked completed up to and including the fix-verified snapshot. -/
theorem verifyCore_true_decomp (env : OrchEnv) (t0 : OTask) (st : OrchState)
    (h : verifyCore env t0 = (st, true)) :
    ∃ l1 a l2 b, st.trace = l1 ++ a :: (l2 ++ b :: [st.task]) ∧
      a.test_status = "failed" ∧ b.fix_status = "verified" ∧
      st.task.status = "completed" ∧ st.task.pr_url = t0.pr_url ∧
      (∀ x ∈ l1 ++ a :: (l2 ++ [b]), x = t0 ∨ x.status = t0.status) := by
  unfold verifyCore at h
  dsimp only at h
  rcases hA : generate_test_step env { task := t0, trace := [t0], events := [] }
    with ⟨st1, b1⟩
  rw [hA] at h
  have hg := generate_test_step_spec env { task := t0, trace := [t0], events := [] }
  rw [hA] at hg
  rcases hg with ⟨lA, hA1, hA2, hA3, hA4, hA5, hA6⟩
  simp only at hA1 hA2 hA3 hA4 hA5 hA6
  cases b1 with
  | false =>
      dsimp only at h
      exact absurd (congrArg Prod.snd h) (by simp)
  | true =>
      dsimp only at h
      rcases hB : verify_vulnerability_exists env st1 with ⟨st2, b2⟩
      rw [hB] at h
      cases b2 with
      | false =>
          dsimp only at h
          exact absurd (congrArg Prod.snd h) (by simp)
      | true =>
          dsimp only at h
          rcases verify_vulnerability_exists_true env st1 st2 hB with
            ⟨hB1, hB2, hB3, hB4, hB5, hB6⟩
          rcases hC : generate_and_verify_fix env st2 with ⟨st3, b3⟩
          rw [hC] at h
          cases b3 with
          | false =>
              dsimp only at h
              exact absurd (congrArg Prod.snd h) (by simp)
          | true =>
              dsimp only at h
              cases h
              rcases generate_and_verify_fix_true env (MAX_RETRIES + 1) st2 st3
                (by omega) hC with ⟨lC, hC1, hC2, hC3, hC4, hC5, hC6, hC7, hC8⟩
              refine ⟨st1.trace, st2.task, lC.dropLast, st3.task, ?_, hB2, hC4, ?_, ?_, ?_⟩
              · show st3.trace ++ _ = _
                rw [hC1, hB1]
                have hdl : lC.dropLast ++ [st3.task] = lC := by
                  have hne : lC ≠ [] := hC2
                  have := List.dropLast_append_getLast hne
                  rw [List.getLast?_eq_getLast_of_ne_nil hne] at hC3
                  rw [← Option.some_inj.mp hC3]
                  exact this
                rw [← hdl]
                simp [save, List.append_assoc]
              · rfl
              · show st3.task.pr_url = t0.pr_url
                rw [hC8, hB5, hA5]
              · intro x hx
                rcases List.mem_append.mp hx with hx | hx
                · rw [hA1] at hx
                  rcases List.mem_append.mp hx with hx | hx
                  · exact Or.inl (List.mem_singleton.mp hx)
                  · exact Or.inr (hA2 x hx)
                · rcases List.mem_cons.mp hx with hx | hx
                  · rw [hx]
                    exact Or.inr (by rw [hB3, hA3])
                  · rcases List.mem_append.mp hx with hx | hx
                    · have hxl : x ∈ lC := by
                        have : lC.dropLast.Sublist lC := List.dropLast_sublist lC
                        exact this.mem hx
                      exact Or.inr (by rw [hC7 x hxl, hB3, hA3])
                    · rw [List.mem_singleton.mp hx]
                      exact Or.inr (by rw [hC6, hB3, hA3])

/-- Claim C5: state-machine safety of the Verification Orchestrator.  If
any snapshot of a task driven by verify_and_fix_vulnerability carries
status "completed", then the trace splits so that a snapshot with
test_status "failed" (vulnerability confirmed) occurs strictly before a
snapshot with fix_status "verified", and no snapshot up to and including
the fix-verified one is marked "completed"; moreover no snapshot is
simultaneously "false_positive" and "completed". -/
theorem C5_state_machine_safety (env : OrchEnv) (t0 : OTask) (create_pr : Bool)
    (h0 : t0.status ≠ "completed") :
    ((∃ s ∈ (verify_and_fix_vulnerability env t0 create_pr).1.trace,
        s.status = "completed") →
      ∃ l1 a l2 b l3,
        (verify_and_fix_vulnerability env t0 create_pr).1.trace =
          l1 ++ a :: (l2 ++ b :: l3) ∧
        a.test_status = "failed" ∧ b.fix_status = "verified" ∧
        ∀ x ∈ l1 ++ a :: (l2 ++ [b]), x.status ≠ "completed") ∧
    (∀ s ∈ (verify_and_fix_vulnerability env t0 create_pr).1.trace,
      ¬(s.status = "false_positive" ∧ s.status = "completed")) := by
  refine ⟨?_, ?_⟩
  case refine_2 =>
    rintro s _ ⟨h1, h2⟩
    exact absurd (h1.symm.trans h2) (by decide)
  case refine_1 =>
    rcases hcore : verifyCore env t0 with ⟨stc, bc⟩
    cases bc
    case false =>
      have hresult : verify_and_fix_vulnerability env t0 create_pr = (stc, false) := by
        unfold verify_and_fix_vulnerability
        rw [hcore]
      rw [hresult]
      intro hex
      exfalso
      rcases hex with ⟨s, hs, hsc⟩
      rcases verifyCore_false_safe env t0 stc hcore s hs with h | h | h
      · exact h0 (h ▸ hsc)
      · exact h0 (h.symm.trans hsc)
      · exact absurd (h.symm.trans hsc) (by decide)
    case true =>
      rcases verifyCore_true_decomp env t0 stc hcore with
        ⟨l1, a, l2, b, hdec, ha, hb, _, _, hsafe⟩
      have hresult : ∃ lp,
          (verify_and_fix_vulnerability env t0 create_pr).1.trace =
            stc.trace ++ lp := by
        unfold verify_and_fix_vulnerability
        rw [hcore]
        cases create_pr
        · exact ⟨[], by simp⟩
        · simpa using create_github_pr_trace env stc
      rcases hresult with ⟨lp, hlp⟩
      intro _
      refine ⟨l1, a, l2, b, [stc.task] ++ lp, ?_, ha, hb, ?_⟩
      · rw [hlp, hdec]
        simp [List.append_assoc]
      · intro x hx
        rcases hsafe x hx with h | h
        · rw [h]; exact h0
        · rw [h]; exact h0

/- A fully successful environment: test generated, test fails against the
original, first fix verifies, PR pipeline succeeds. -/
def envSucc : OrchEnv :=
  { generate_test := .ok "tc"
    run_test := .ok { passed := false, output := "o", error := "e" }
    generate_fix := fun _ => .ok "fc"
    run_test_with_fix := fun _ => .ok { passed := true, output := "o2", error := "" }
    get_client := .ok ()
    create_fix_branch := .ok "fix-branch"
    commit_fix := .ok "sha"
    create_pull_request := .ok "pr-7" }

theorem C5_state_machine_safety_witness :
    (({} : OTask).status ≠ "completed") ∧
    (((∃ s ∈ (verify_and_fix_vulnerability envSucc {} false).1.trace,
        s.status = "completed") →
      ∃ l1 a l2 b l3,
        (verify_and_fix_vulnerability envSucc {} false).1.trace =
          l1 ++ a :: (l2 ++ b :: l3) ∧
        a.test_status = "failed" ∧ b.fix_status = "verified" ∧
        ∀ x ∈ l1 ++ a :: (l2 ++ [b]), x.status ≠ "completed") ∧
    (∀ s ∈ (verify_and_fix_vulnerability envSucc {} false).1.trace,
      ¬(s.status = "false_positive" ∧ s.status = "completed"))) :=
  ⟨by decide, C5_state_machine_safety envSucc {} false (by decide)⟩

/- Number of fix-generation attempts made: the FixGenerator.generate_fix
calls recorded in the event log. -/
def isGenFixCall : OrchEvent → Bool
  | .genFixCall _ => true
  | _ => false

def countGenFix (evs : List OrchEvent) : Nat := (evs.filter isGenFixCall).length

theorem countGenFix_append (l1 l2 : List OrchEvent) :
    countGenFix (l1 ++ l2) = countGenFix l1 + countGenFix l2 := by
  simp [countGenFix, List.filter_append]

theorem generate_test_step_events (env : OrchEnv) (st : OrchState) :
    (generate_test_step env st).1.events = st.events ++ [OrchEvent.genTestCall] := by
  unfold generate_test_step save
  cases env.generate_test with
  | ok code => dsimp only; split <;> rfl
  | exn e => rfl

theorem verify_vulnerability_exists_events (env : OrchEnv) (st : OrchState) :
    (verify_vulnerability_exists env st).1.events =
      st.events ++ [OrchEvent.runTestCall] := by
  unfold verify_vulnerability_exists save
  cases env.run_test with
  | ok r => dsimp only; split <;> rfl
  | exn e => rfl

theorem generate_fix_step_events (env : OrchEnv) (st : OrchState) :
    (generate_fix_step env st).1.events =
      st.events ++ [OrchEvent.genFixCall st.task.retry_count] := by
  unfold generate_fix_step save
  cases env.generate_fix st.task.retry_count with
  | ok code => dsimp only; split <;> rfl
  | exn e => rfl

theorem verify_fix_step_events (env : OrchEnv) (st : OrchState) :
    (verify_fix_step env st).1.events =
      st.events ++ [OrchEvent.runFixCall st.task.retry_count] := by
  unfold verify_fix_step save
  cases env.run_test_with_fix st.task.retry_count with
  | ok r => dsimp only; split <;> rfl
  | exn e => rfl

theorem create_github_pr_events (env : OrchEnv) (st : OrchState) :
    (create_github_pr env st).events = st.events ++ [OrchEvent.prCall] := by
  unfold create_github_pr pr_fail save
  cases env.get_client with
  | exn e => rfl
  | ok u =>
      dsimp only
      cases env.create_fix_branch with
      | exn e => rfl
      | ok b =>
          dsimp only
          cases env.commit_fix with
          | exn e => rfl
          | ok c =>
              dsimp only
              cases env.create_pull_request with
              | exn e => rfl
              | ok url => rfl

/- The fix loop makes at most MAX_RETRIES + 1 - retry_count further
fix-generation calls. -/
theorem generate_and_verify_fix_events (env : OrchEnv) :
    ∀ (n : Nat) (st : OrchState), MAX_RETRIES + 1 - st.task.retry_count ≤ n →
      countGenFix (generate_and_verify_fix env st).1.events ≤
        countGenFix st.events + (MAX_RETRIES + 1 - st.task.retry_count) := by
  intro n
  induction n with
  | zero =>
      intro st hn
      have hgt : ¬ st.task.retry_count ≤ MAX_RETRIES := by omega
      rw [generate_and_verify_fix_gt env st hgt]
      exact Nat.le_add_right _ _
  | succ n ih =>
      intro st hn
      by_cases h0 : st.task.retry_count ≤ MAX_RETRIES
      case neg =>
        rw [generate_and_verify_fix_gt env st h0]
        exact Nat.le_add_right _ _
      case pos =>
      rw [generate_and_verify_fix_le env st h0]
      rcases hgen : generate_fix_step env st with ⟨st1, b1⟩
      have hge := generate_fix_step_events env st
      rw [hgen] at hge
      simp only at hge
      have hg1 : countGenFix st1.events = countGenFix st.events + 1 := by
        rw [hge, countGenFix_append]
        rfl
      have hgr := generate_fix_step_retry env st
      rw [hgen] at hgr
      simp only at hgr
      cases b1 with
      | false => dsimp only; omega
      | true =>
          dsimp only
          rcases hver : verify_fix_step env st1 with ⟨st2, b2⟩
          have hve := verify_fix_step_events env st1
          rw [hver] at hve
          simp only at hve
          have hv1 : countGenFix st2.events = countGenFix st1.events := by
            rw [hve, countGenFix_append]
            rfl
          have hvr := verify_fix_step_retry env st1
          rw [hver] at hvr
          simp only at hvr
          cases b2 with
          | true => dsimp only; omega
          | false =>
              dsimp only
              split
              case isTrue h2 =>
                have := ih
                  { task := { st2.task with retry_count := st2.task.retry_count + 1 },
                    trace := st2.trace ++
                      [{ st2.task with retry_count := st2.task.retry_count + 1 }],
                    events := st2.events }
                  (by simp only; omega)
                simp only at this
                omega
              case isFalse h2 =>
                simp only
                omega

/- Exhaustion environment: both fix attempts verify as still-failing. -/
def envExhaust : OrchEnv :=
  { generate_test := .ok "tc"
    run_test := .ok { passed := false, output := "o", error := "e" }
    generate_fix := fun _ => .ok "fc"
    run_test_with_fix := fun _ => .ok { passed := false, output := "o2", error := "e2" }
    get_client := .ok ()
    create_fix_branch := .ok "fix-branch"
    commit_fix := .ok "sha"
    create_pull_request := .ok "pr-7" }

/- Scenario D environment: the test still fails against the first fix and
passes against the second (retry) fix. -/
def envScenD : OrchEnv :=
  { generate_test := .ok "tc"
    run_test := .ok { passed := false, output := "o", error := "e" }
    generate_fix := fun _ => .ok "fc"
    run_test_with_fix := fun n =>
      .ok { passed := n == 1, output := "o2", error := "e2" }
    get_client := .ok ()
    create_fix_branch := .ok "fix-branch"
    commit_fix := .ok "sha"
    create_pull_request := .ok "pr-7" }

/-- Claim C6: bounded retry of fix generation.  MAX_RETRIES is 1; for a
task starting at retry_count = 0 the orchestrator makes at most 2
fix-generation calls in any environment; when both attempts fail
verification the task is forced to status "false_positive" with fix_status
"failed" after exactly 2 attempts; and in the scenario-D trace (test fails
against the original, first fix still fails, second fix passes) the run
succeeds with final status "completed" and retry_count = 1. -/
theorem C6_retry_bound (t0 : OTask) (h0 : t0.retry_count = 0) :
    MAX_RETRIES = 1 ∧
    (∀ (env : OrchEnv) (cpr : Bool),
      countGenFix (verify_and_fix_vulnerability env t0 cpr).1.events ≤ 2) ∧
    ((verify_and_fix_vulnerability envExhaust {} false).2 = false ∧
      (verify_and_fix_vulnerability envExhaust {} false).1.task.status =
        "false_positive" ∧
      (verify_and_fix_vulnerability envExhaust {} false).1.task.fix_status =
        "failed" ∧
      countGenFix (verify_and_fix_vulnerability envExhaust {} false).1.events = 2) ∧
    ((verify_and_fix_vulnerability envScenD {} false).2 = true ∧
      (verify_and_fix_vulnerability envScenD {} false).1.task.status =
        "completed" ∧
      (verify_and_fix_vulnerability envScenD {} false).1.task.retry_count = 1) := by
  refine ⟨rfl, ?_, by decide, by decide⟩
  intro env cpr
  unfold verify_and_fix_vulnerability
  rcases hcore : verifyCore env t0 with ⟨stc, bc⟩
  have hcount : countGenFix stc.events ≤ 2 := by
    have hM : MAX_RETRIES = 1 := rfl
    unfold verifyCore at hcore
    dsimp only at hcore
    rcases hA : generate_test_step env { task := t0, trace := [t0], events := [] }
      with ⟨st1, b1⟩
    rw [hA] at hcore
    have hAe := generate_test_step_events env { task := t0, trace := [t0], events := [] }
    rw [hA] at hAe
    simp only at hAe
    have hA0 : countGenFix st1.events = 0 := by rw [hAe]; rfl
    have hg := generate_test_step_spec env { task := t0, trace := [t0], events := [] }
    rw [hA] at hg
    rcases hg with ⟨lA, _, _, _, hA4, _, _⟩
    simp only at hA4
    cases b1 with
    | false =>
        dsimp only at hcore
        cases hcore
        omega
    | true =>
        dsimp only at hcore
        rcases hB : verify_vulnerability_exists env st1 with ⟨st2, b2⟩
        rw [hB] at hcore
        have hBe := verify_vulnerability_exists_events env st1
        rw [hB] at hBe
        simp only at hBe
        have hB0 : countGenFix st2.events = 0 := by
          rw [hBe, countGenFix_append, hA0]
          rfl
        have hv := verify_vulnerability_exists_safe env st1
        rw [hB] at hv
        rcases hv with ⟨lB, _, _, _, hB4, _, _⟩
        simp only at hB4
        cases b2 with
        | false =>
            dsimp only at hcore
            cases hcore
            omega
        | true =>
            dsimp only at hcore
            rcases hC : generate_and_verify_fix env st2 with ⟨st3, b3⟩
            rw [hC] at hcore
            have hCe := generate_and_verify_fix_events env (MAX_RETRIES + 1) st2
              (by omega)
            rw [hC] at hCe
            simp only at hCe
            have hr2 : st2.task.retry_count = 0 := by
              rw [hB4, hA4, h0]
            rw [hr2, hB0] at hCe
            cases b3 with
            | false =>
                dsimp only at hcore
                cases hcore
                omega
            | true =>
                dsimp only at hcore
                cases hcore
                simp only [save]
                omega
  cases bc with
  | false => exact hcount
  | true =>
      cases cpr with
      | false => exact hcount
      | true =>
          show countGenFix (create_github_pr env stc).events ≤ 2
          rw [create_github_pr_events env stc, countGenFix_append]
          have hpr : countGenFix [OrchEvent.prCall] = 0 := rfl
          omega

theorem C6_retry_bound_witness :
    (({} : OTask).retry_count = 0) ∧
    ((verify_and_fix_vulnerability envScenD {} false).2 = true ∧
      (verify_and_fix_vulnerability envScenD {} false).1.task.status = "completed" ∧
      (verify_and_fix_vulnerability envScenD {} false).1.task.retry_count = 1) :=
  ⟨rfl, (C6_retry_bound {} rfl).2.2.2⟩

theorem generate_test_step_ok_eq (env : OrchEnv) (st : OrchState) (tc : String)
    (h : env.generate_test = .ok tc) (hne : tc ≠ "") :
    generate_test_step env st =
      (save { st with
          events := st.events ++ [OrchEvent.genTestCall]
          task := { st.task with test_code := tc, test_status := "generated" } },
        true) := by
  unfold generate_test_step
  rw [h]
  dsimp only
  rw [if_neg hne]

theorem verify_vulnerability_exists_passed_eq (env : OrchEnv) (st : OrchState)
    (r : TestResult) (h : env.run_test = .ok r) (hp : r.passed = true) :
    verify_vulnerability_exists env st =
      (save { st with
          events := st.events ++ [OrchEvent.runTestCall]
          task := { st.task with
            test_status := "passed"
            status := "false_positive"
            validation_message :=
              "Test passed on first run - vulnerability does not exist" } },
        false) := by
  unfold verify_vulnerability_exists
  rw [h]
  dsimp only
  rw [if_pos hp]

/-- Claim C7: false-positive short-circuit.  When the generated test passes
on its first run against the original code, verify_and_fix_vulnerability
returns False, the task ends with status "false_positive" and test_status
"passed", fix_code stays empty, and no fix-generation call is made. -/
theorem C7_false_positive_short_circuit (env : OrchEnv) (t0 : OTask) (cpr : Bool)
    (tc : String) (r : TestResult)
    (hgt : env.generate_test = .ok tc) (htc : tc ≠ "")
    (hrt : env.run_test = .ok r) (hp : r.passed = true)
    (hfc : t0.fix_code = "") :
    (verify_and_fix_vulnerability env t0 cpr).2 = false ∧
    (verify_and_fix_vulnerability env t0 cpr).1.task.status = "false_positive" ∧
    (verify_and_fix_vulnerability env t0 cpr).1.task.test_status = "passed" ∧
    (verify_and_fix_vulnerability env t0 cpr).1.task.fix_code = "" ∧
    countGenFix (verify_and_fix_vulnerability env t0 cpr).1.events = 0 := by
  unfold verify_and_fix_vulnerability verifyCore
  dsimp only
  rw [generate_test_step_ok_eq env _ tc hgt htc]
  dsimp only [save]
  rw [verify_vulnerability_exists_passed_eq env _ r hrt hp]
  dsimp only [save]
  exact ⟨rfl, rfl, rfl, hfc, rfl⟩

/- Environment whose generated test passes immediately against the
original code. -/
def envPass : OrchEnv :=
  { generate_test := .ok "tc"
    run_test := .ok { passed := true, output := "o", error := "" }
    generate_fix := fun _ => .ok "fc"
    run_test_with_fix := fun _ => .ok { passed := true, output := "o2", error := "" }
    get_client := .ok ()
    create_fix_branch := .ok "fix-branch"
    commit_fix := .ok "sha"
    create_pull_request := .ok "pr-7" }

theorem C7_false_positive_short_circuit_witness :
    (envPass.generate_test = .ok "tc" ∧ ("tc" : String) ≠ "" ∧
      envPass.run_test = .ok { passed := true, output := "o", error := "" } ∧
      (({} : OTask)).fix_code = "") ∧
    ((verify_and_fix_vulnerability envPass {} false).2 = false ∧
      (verify_and_fix_vulnerability envPass {} false).1.task.status =
        "false_positive" ∧
      (verify_and_fix_vulnerability envPass {} false).1.task.test_status =
        "passed" ∧
      (verify_and_fix_vulnerability envPass {} false).1.task.fix_code = "" ∧
      countGenFix (verify_and_fix_vulnerability envPass {} false).1.events = 0) :=
  ⟨⟨rfl, by decide, rfl, rfl⟩,
    C7_false_positive_short_circuit envPass {} false "tc"
      { passed := true, output := "o", error := "" } rfl (by decide) rfl rfl rfl⟩

/-- Claim C8: PR creation is best-effort and does not revert verification.
If the run without PR creation succeeds, then the run with PR creation
still returns True; if any PR pipeline step (client, branch, commit, pull
request) raises, the final task status is "completed", pr_url stays unset,
and the validation message carries the PR failure text; the task reaches
status "pr_created" with pr_url set exactly when every pipeline step
succeeds. -/
theorem C8_pr_best_effort (env : OrchEnv) (t0 : OTask) (st : OrchState)
    (hsucc : verify_and_fix_vulnerability env t0 false = (st, true))
    (hpr0 : t0.pr_url = none) :
    (verify_and_fix_vulnerability env t0 true).2 = true ∧
    (∀ e : String,
      (env.get_client = .exn e ∨
       (∃ u, env.get_client = .ok u ∧ env.create_fix_branch = .exn e) ∨
       (∃ u b, env.get_client = .ok u ∧ env.create_fix_branch = .ok b ∧
         env.commit_fix = .exn e) ∨
       (∃ u b c, env.get_client = .ok u ∧ env.create_fix_branch = .ok b ∧
         env.commit_fix = .ok c ∧ env.create_pull_request = .exn e)) →
      (verify_and_fix_vulnerability env t0 true).1.task.status = "completed" ∧
      (verify_and_fix_vulnerability env t0 true).1.task.pr_url = none ∧
      (verify_and_fix_vulnerability env t0 true).1.task.validation_message =
        st.task.validation_message ++ "\nPR creation failed: " ++ e) ∧
    (∀ (u : Unit) (b c url : String),
      env.get_client = .ok u → env.create_fix_branch = .ok b →
      env.commit_fix = .ok c → env.create_pull_request = .ok url →
      (verify_and_fix_vulnerability env t0 true).1.task.status = "pr_created" ∧
      (verify_and_fix_vulnerability env t0 true).1.task.pr_url = some url) := by
  have hstc : verifyCore env t0 = (st, true) := by
    unfold verify_and_fix_vulnerability at hsucc
    rcases hcore : verifyCore env t0 with ⟨stc, bc⟩
    rw [hcore] at hsucc
    cases bc with
    | false =>
        exact absurd (congrArg Prod.snd hsucc) (by simp)
    | true =>
        dsimp only at hsucc
        rw [if_neg (by simp)] at hsucc
        exact hsucc
  have hres : verify_and_fix_vulnerability env t0 true =
      (create_github_pr env st, true) := by
    unfold verify_and_fix_vulnerability
    rw [hstc]
    rfl
  have hprst : st.task.pr_url = none := by
    rcases verifyCore_true_decomp env t0 st hstc with
      ⟨l1, a, l2, b, _, _, _, _, hprst, _⟩
    rw [hprst, hpr0]
  rw [hres]
  refine ⟨rfl, ?_, ?_⟩
  · intro e hcase
    rcases hcase with h1 | ⟨u, h1, h2⟩ | ⟨u, b, h1, h2, h3⟩ | ⟨u, b, c, h1, h2, h3, h4⟩
    · unfold create_github_pr pr_fail save
      rw [h1]
      exact ⟨rfl, hprst, rfl⟩
    · unfold create_github_pr pr_fail save
      rw [h1]
      dsimp only
      rw [h2]
      exact ⟨rfl, hprst, rfl⟩
    · unfold create_github_pr pr_fail save
      rw [h1]
      dsimp only
      rw [h2]
      dsimp only
      rw [h3]
      exact ⟨rfl, hprst, rfl⟩
    · unfold create_github_pr pr_fail save
      rw [h1]
      dsimp only
      rw [h2]
      dsimp only
      rw [h3]
      dsimp only
      rw [h4]
      exact ⟨rfl, hprst, rfl⟩
  · intro u b c url h1 h2 h3 h4
    unfold create_github_pr save
    rw [h1]
    dsimp only
    rw [h2]
    dsimp only
    rw [h3]
    dsimp only
    rw [h4]
    exact ⟨rfl, rfl⟩

/- Same fully successful environment but with a failing pull-request call:
the verification phase is unaffected. -/
def envPrFail : OrchEnv :=
  { generate_test := .ok "tc"
    run_test := .ok { passed := false, output := "o", error := "e" }
    generate_fix := fun _ => .ok "fc"
    run_test_with_fix := fun _ => .ok { passed := true, output := "o2", error := "" }
    get_client := .ok ()
    create_fix_branch := .ok "fix-branch"
    commit_fix := .ok "sha"
    create_pull_request := .exn "boom" }

theorem C8_pr_best_effort_witness :
    (verify_and_fix_vulnerability envPrFail {} false =
      ((verify_and_fix_vulnerability envPrFail {} false).1, true) ∧
      (({} : OTask)).pr_url = none) ∧
    ((verify_and_fix_vulnerability envPrFail {} true).2 = true ∧
      (verify_and_fix_vulnerability envPrFail {} true).1.task.status =
        "completed" ∧
      (verify_and_fix_vulnerability envPrFail {} true).1.task.pr_url = none) ∧
    ((verify_and_fix_vulnerability envSucc {} true).1.task.status =
      "pr_created" ∧
      (verify_and_fix_vulnerability envSucc {} true).1.task.pr_url =
        some "pr-7") :=
  ⟨⟨by decide, rfl⟩,
    ⟨(C8_pr_best_effort envPrFail {}
        (verify_and_fix_vulnerability envPrFail {} false).1 (by decide) rfl).1,
      ((C8_pr_best_effort envPrFail {}
          (verify_and_fix_vulnerability envPrFail {} false).1 (by decide) rfl).2.1
        "boom" (Or.inr (Or.inr (Or.inr ⟨(), "fix-branch", "sha", rfl, rfl, rfl, rfl⟩)))).1,
      ((C8_pr_best_effort envPrFail {}
          (verify_and_fix_vulnerability envPrFail {} false).1 (by decide) rfl).2.1
        "boom" (Or.inr (Or.inr (Or.inr ⟨(), "fix-branch", "sha", rfl, rfl, rfl, rfl⟩)))).2.1⟩,
    ((C8_pr_best_effort envSucc {}
        (verify_and_fix_vulnerability envSucc {} false).1 (by decide) rfl).2.2
      () "fix-branch" "sha" "pr-7" rfl rfl rfl rfl)⟩

/- TestRunner (test_runner.py lines 31-54). -/
structure TestRunner where
  timeout : Nat
deriving DecidableEq, Repr

/- TestRunner() with the __init__ default timeout=30. -/
def TestRunner.new : TestRunner := { timeout := 30 }

/- Filesystem and process side effects of the test runner, in program
order. -/
inductive FsOp where
  | mkdtemp (dir : String)
  | writeFile (path : String) (content : String)
  | runSubprocess (cwd : String) (timeout : Nat)
  | unlink (path : String)
  | rmtree (dir : String)
deriving DecidableEq, Repr

/- Outcome of the pytest subprocess.run call: a completed process with a
return code, subprocess.TimeoutExpired, or another exception. -/
inductive SubprocOutcome where
  | completes (returncode : Int) (stdout stderr : String)
  | timesOut
  | raises (msg : String)
deriving DecidableEq, Repr

/- os.path.basename for forward-slash paths. -/
def basename (p : String) : String := (p.splitOn "/").getLastD ""

/- TestRunner.run_test (lines 83-143): write the test to a temporary file,
run pytest with the configured timeout, treat returncode == 0 as passed,
map TimeoutExpired to the distinct timed-out result and any other
exception to an error result, and unlink the temporary file in the finally
block on every exit path. -/
def run_test (tr : TestRunner) (test_code _file_path temp_file_path : String)
    (o : SubprocOutcome) : TestResult × List FsOp :=
  let ops := [FsOp.writeFile temp_file_path test_code,
              FsOp.runSubprocess "" tr.timeout]
  match o with
  | .completes rc out err =>
      ({ passed := rc == 0, output := out, error := err, timed_out := false },
        ops ++ [FsOp.unlink temp_file_path])
  | .timesOut =>
      ({ passed := false, output := "",
         error := "Test timed out after " ++ toString tr.timeout ++ " seconds",
         timed_out := true }, ops ++ [FsOp.unlink temp_file_path])
  | .raises msg =>
      ({ passed := false, output := "", error := msg, timed_out := false },
        ops ++ [FsOp.unlink temp_file_path])

/- The try block of run_test_with_fix can also fail while creating the
temporary directory or writing the two files; each stage is an outcome. -/
inductive WithFixOutcome where
  | mkdtempRaises (msg : String)
  | writeFixRaises (msg : String)
  | writeTestRaises (msg : String)
  | subprocess (o : SubprocOutcome)
deriving DecidableEq, Repr

/- TestRunner.run_test_with_fix (lines 145-226): make a private temporary
directory, write the candidate fix under the original file's basename and
the test as test_<basename> next to it, run pytest in that directory with
the configured timeout, and remove the directory in the finally block on
every exit path on which it was created. -/
def run_test_with_fix (tr : TestRunner) (test_code file_path fix_code : String)
    (temp_dir : String) (outcome : WithFixOutcome) : TestResult × List FsOp :=
  match outcome with
  | .mkdtempRaises msg =>
      ({ passed := false, output := "",
         error := "Error running test with fix: " ++ msg, timed_out := false }, [])
  | .writeFixRaises msg =>
      ({ passed := false, output := "",
         error := "Error running test with fix: " ++ msg, timed_out := false },
       [FsOp.mkdtemp temp_dir, FsOp.rmtree temp_dir])
  | .writeTestRaises msg =>
      ({ passed := false, output := "",
         error := "Error running test with fix: " ++ msg, timed_out := false },
       [FsOp.mkdtemp temp_dir,
        FsOp.writeFile (temp_dir ++ "/" ++ basename file_path) fix_code,
        FsOp.rmtree temp_dir])
  | .subprocess o =>
      let ops := [FsOp.mkdtemp temp_dir,
                  FsOp.writeFile (temp_dir ++ "/" ++ basename file_path) fix_code,
                  FsOp.writeFile (temp_dir ++ "/" ++ ("test_" ++ basename file_path))
                    test_code,
                  FsOp.runSubprocess temp_dir tr.timeout]
      match o with
      | .completes rc out err =>
          ({ passed := rc == 0, output := out, error := err, timed_out := false },
            ops ++ [FsOp.rmtree temp_dir])
      | .timesOut =>
          ({ passed := false, output := "",
             error := "Test timed out after " ++ toString tr.timeout ++ " seconds",
             timed_out := true }, ops ++ [FsOp.rmtree temp_dir])
      | .raises msg =>
          ({ passed := false, output := "",
             error := "Error running test with fix: " ++ msg, timed_out := false },
            ops ++ [FsOp.rmtree temp_dir])

/-- Claim C9: test-runner timeout and cleanup.  The default wall-clock
timeout is 30 seconds and every subprocess run uses the configured timeout;
a timeout yields the distinct outcome timed_out = true with passed = false
(a completed process always has timed_out = false); run_test_with_fix
writes the candidate fix under the original file's basename next to the
same-named test file inside the private temporary directory; and whenever
the directory was created, the run removes it — on success, timeout and
exception paths alike. -/
theorem C9_test_runner_timeout_cleanup :
    TestRunner.new.timeout = 30 ∧
    (∀ (tr : TestRunner) (tc fp tf : String),
      (run_test tr tc fp tf .timesOut).1.timed_out = true ∧
      (run_test tr tc fp tf .timesOut).1.passed = false ∧
      FsOp.runSubprocess "" tr.timeout ∈ (run_test tr tc fp tf .timesOut).2) ∧
    (∀ (tr : TestRunner) (tc fp fc dir : String),
      (run_test_with_fix tr tc fp fc dir (.subprocess .timesOut)).1.timed_out = true ∧
      (run_test_with_fix tr tc fp fc dir (.subprocess .timesOut)).1.passed = false) ∧
    (∀ (tr : TestRunner) (tc fp fc dir : String) (rc : Int) (out err : String),
      (run_test_with_fix tr tc fp fc dir
        (.subprocess (.completes rc out err))).1.timed_out = false) ∧
    (∀ (tr : TestRunner) (tc fp fc dir : String) (o : SubprocOutcome),
      FsOp.writeFile (dir ++ "/" ++ basename fp) fc ∈
        (run_test_with_fix tr tc fp fc dir (.subprocess o)).2 ∧
      FsOp.writeFile (dir ++ "/" ++ ("test_" ++ basename fp)) tc ∈
        (run_test_with_fix tr tc fp fc dir (.subprocess o)).2 ∧
      FsOp.runSubprocess dir tr.timeout ∈
        (run_test_with_fix tr tc fp fc dir (.subprocess o)).2) ∧
    (∀ (tr : TestRunner) (tc fp fc dir : String) (outcome : WithFixOutcome),
      FsOp.mkdtemp dir ∈ (run_test_with_fix tr tc fp fc dir outcome).2 →
      FsOp.rmtree dir ∈ (run_test_with_fix tr tc fp fc dir outcome).2) := by
  refine ⟨rfl, ?_, ?_, ?_, ?_, ?_⟩
  · intro tr tc fp tf
    refine ⟨rfl, rfl, ?_⟩
    simp [run_test]
  · intro tr tc fp fc dir
    exact ⟨rfl, rfl⟩
  · intro tr tc fp fc dir rc out err
    rfl
  · intro tr tc fp fc dir o
    cases o <;> simp [run_test_with_fix]
  · intro tr tc fp fc dir outcome
    cases outcome with
    | mkdtempRaises msg => intro h; simp [run_test_with_fix] at h
    | writeFixRaises msg => intro _; simp [run_test_with_fix]
    | writeTestRaises msg => intro _; simp [run_test_with_fix]
    | subprocess o => intro _; cases o <;> simp [run_test_with_fix]

theorem C9_test_runner_timeout_cleanup_witness :
    (run_test_with_fix TestRunner.new "t" "a/b.py" "f" "tmp"
        (.subprocess .timesOut)).1.timed_out = true ∧
    FsOp.rmtree "tmp" ∈ (run_test_with_fix TestRunner.new "t" "a/b.py" "f" "tmp"
        (.subprocess .timesOut)).2 ∧
    FsOp.mkdtemp "tmp" ∈ (run_test_with_fix TestRunner.new "t" "a/b.py" "f" "tmp"
        (.subprocess .timesOut)).2 :=
  ⟨(C9_test_runner_timeout_cleanup.2.1 TestRunner.new "t" "a/b.py" "tmp").1 ▸ rfl,
    C9_test_runner_timeout_cleanup.2.2.2.2.2 TestRunner.new "t" "a/b.py" "f" "tmp"
      (.subprocess .timesOut) (by decide),
    by decide⟩

/-- Claim C10: AnalysisSession.progress_percentage is total: it returns 0
when total_files is 0 instead of dividing by zero, otherwise
min(files_analyzed / total_files * 100, 100), and for all non-negative
counter values the result is between 0 and 100. -/
theorem C10_progress_percentage_total (s : AnalysisSession) :
    progress_percentage s ≤ 100 ∧ 0 ≤ progress_percentage s ∧
    (s.total_files = 0 → progress_percentage s = 0) ∧
    (s.total_files ≠ 0 →
      progress_percentage s =
        min ((s.files_analyzed : ℚ) / (s.total_files : ℚ) * 100) 100) := by
  unfold progress_percentage
  by_cases h : s.total_files = 0
  · rw [if_pos h]
    refine ⟨by norm_num, le_refl 0, fun _ => rfl, fun hc => absurd h hc⟩
  · rw [if_neg h]
    refine ⟨min_le_right _ _, ?_, fun hc => absurd hc h, fun _ => rfl⟩
    refine le_min ?_ (by norm_num)
    have h1 : (0 : ℚ) ≤ (s.files_analyzed : ℚ) := by positivity
    have h2 : (0 : ℚ) ≤ (s.total_files : ℚ) := by positivity
    positivity

theorem C10_progress_percentage_total_witness :
    progress_percentage {} = 0 ∧
    progress_percentage { total_files := 8, files_analyzed := 4 } ≤ 100 :=
  ⟨(C10_progress_percentage_total {}).2.2.1 rfl,
    (C10_progress_percentage_total { total_files := 8, files_analyzed := 4 }).1⟩

end Fixit
